import Mathlib

/-!
Verification development for the picocom terminal-handling library.

This file gives a shallow embedding, in Lean 4, of the parts of picocom that
the specification claims talk about:

* `src/tn2217.c` — the TELNET / RFC2217 COM-PORT remote-terminal backend:
  the RFC1143 option-negotiation engine (`remote_opt`, `local_opt`,
  `recv_opt`), the IAC stream codec (`escape_write`, `read_and_proc`), the
  COM-PORT suboption machinery (`comport_send_*`, `comport_recv_cmd`,
  `comport_config_port`, `comport_start`), and the blocking read/write entry
  points (`wait_cond`, `tn2217_read`, `tn2217_write`).
* `src/term.c` — the terminal registry (`term_find`, `term_new`, `term_add`,
  `term_erase`, `term_apply`, `term_set_baudrate`, `term_get_baudrate`) and
  the standard baud-rate table with its translation functions
  (`Bcode`, `Bspeed`).

Bytes are modelled as `Nat` (always < 256 in practice), C ints as `Int` or
`Nat` as appropriate, and socket writes as an explicit output list.  Each
definition mirrors the corresponding C function; deviations forced by the
missing pieces of the repository are marked `Modelled from the spec:`.
-/

namespace Picocom

/-! ## TELNET protocol constants (arpa/telnet.h) -/

def IAC  : Nat := 255
def DONT : Nat := 254
def DO   : Nat := 253
def WONT : Nat := 252
def WILL : Nat := 251
def SB   : Nat := 250
def SE   : Nat := 240
def AYT  : Nat := 246
def BRK  : Nat := 243
def IP   : Nat := 244

def TELOPT_BINARY  : Nat := 0
def TELOPT_ECHO    : Nat := 1
def TELOPT_SGA     : Nat := 3
def TELOPT_COMPORT : Nat := 44

/-! ## RFC2217 COM-PORT constants (src/tncomport.h) -/

def COMPORT_SIGNATURE           : Nat := 0
def COMPORT_SET_BAUDRATE        : Nat := 1
def COMPORT_SET_DATASIZE        : Nat := 2
def COMPORT_SET_PARITY          : Nat := 3
def COMPORT_SET_STOPSIZE        : Nat := 4
def COMPORT_SET_CONTROL         : Nat := 5
def COMPORT_NOTIFY_MODEMSTATE   : Nat := 7
def COMPORT_SET_LINESTATE_MASK  : Nat := 10
def COMPORT_SET_MODEMSTATE_MASK : Nat := 11
def COMPORT_SERVER_BASE         : Nat := 100

def COMPORT_BAUDRATE_REQUEST : Nat := 0
def COMPORT_DATASIZE_REQUEST : Nat := 0
def COMPORT_DATASIZE_5 : Nat := 5
def COMPORT_DATASIZE_6 : Nat := 6
def COMPORT_DATASIZE_7 : Nat := 7
def COMPORT_DATASIZE_8 : Nat := 8
def COMPORT_PARITY_REQUEST : Nat := 0
def COMPORT_PARITY_NONE : Nat := 1
def COMPORT_PARITY_ODD  : Nat := 2
def COMPORT_PARITY_EVEN : Nat := 3
def COMPORT_STOPSIZE_REQUEST : Nat := 0
def COMPORT_STOPSIZE_1 : Nat := 1
def COMPORT_STOPSIZE_2 : Nat := 2
def COMPORT_CONTROL_FC_REQUEST  : Nat := 0
def COMPORT_CONTROL_FC_NONE     : Nat := 1
def COMPORT_CONTROL_FC_XONOFF   : Nat := 2
def COMPORT_CONTROL_FC_HARDWARE : Nat := 3
def COMPORT_CONTROL_FC_DCD      : Nat := 17
def COMPORT_CONTROL_FC_DSR      : Nat := 19
def COMPORT_CONTROL_BREAK_REQUEST : Nat := 4
def COMPORT_CONTROL_BREAK_ON    : Nat := 5
def COMPORT_CONTROL_BREAK_OFF   : Nat := 6
def COMPORT_CONTROL_DTR_REQUEST : Nat := 7
def COMPORT_CONTROL_DTR_ON      : Nat := 8
def COMPORT_CONTROL_DTR_OFF     : Nat := 9
def COMPORT_CONTROL_RTS_REQUEST : Nat := 10
def COMPORT_CONTROL_RTS_ON      : Nat := 11
def COMPORT_CONTROL_RTS_OFF     : Nat := 12

def COMPORT_MODEM_CD  : Nat := 128
def COMPORT_MODEM_RI  : Nat := 64
def COMPORT_MODEM_DSR : Nat := 32
def COMPORT_MODEM_CTS : Nat := 16

/-- MODEMSTATE_MASK from src/tn2217.c: CD | RI | DSR | CTS. -/
def MODEMSTATE_MASK : Nat :=
  COMPORT_MODEM_CD ||| COMPORT_MODEM_RI ||| COMPORT_MODEM_DSR ||| COMPORT_MODEM_CTS

/-! ## Modem-control line bits (Linux sys/ioctl.h TIOCM values) -/

def TIOCM_DTR : Nat := 2
def TIOCM_RTS : Nat := 4
def TIOCM_CTS : Nat := 32
def TIOCM_CD  : Nat := 64
def TIOCM_RI  : Nat := 128
def TIOCM_DSR : Nat := 256

/-- Clear the bits of `mask` in `m` (C: `m &= ~mask`; all masks used fit in
32 bits). -/
def bclr (m mask : Nat) : Nat := m &&& (0xFFFFFFFF ^^^ mask)

/-! ## term.h enumerations used by the tn2217 backend -/

def P_NONE  : Nat := 0
def P_EVEN  : Nat := 1
def P_ODD   : Nat := 2
def P_MARK  : Nat := 3
def P_SPACE : Nat := 4
def P_ERROR : Nat := 5

def FC_NONE    : Nat := 0
def FC_RTSCTS  : Nat := 1
def FC_XONXOFF : Nat := 2
def FC_OTHER   : Nat := 3
def FC_ERROR   : Nat := 4

/-! ## RFC1143 Q-method option state (struct q_option, src/tn2217.c) -/

def NO      : Nat := 0
def YES     : Nat := 1
def WANTYES : Nat := 2
def WANTNO  : Nat := 3
def EMPTY    : Nat := 0
def OPPOSITE : Nat := 1

/-- One TELNET option's negotiation state: `us`/`him` in
{NO, YES, WANTYES, WANTNO}, each with a one-bit queue. -/
structure QOption where
  us   : Nat
  him  : Nat
  usq  : Nat
  himq : Nat
deriving DecidableEq

/-- The remote's predicted com-port configuration.  The real code stores a
`struct termios` manipulated only through the `tios_get_*` / `tios_set_*`
helpers declared in src/termint.h, whose definitions are not part of the
sources at hand; following the specification, the predicted configuration is
a TerminalConfiguration record (baud rate, data bits, parity, stop bits,
flow control). -/
structure RTios where
  baudrate : Int
  databits : Int
  parity   : Nat
  stopbits : Int
  flow     : Nat
deriving DecidableEq

/-- Modelled from the spec: `tios_get_baudrate` (src/termint.h, definition
not in the sources) reads the configuration's baud rate. -/
def tios_get_baudrate (tio : RTios) : Int := tio.baudrate

/-- Modelled from the spec: `tios_set_baudrate_always` sets the baud rate. -/
def tios_set_baudrate_always (tio : RTios) (b : Nat) : RTios :=
  { tio with baudrate := (b : Int) }

/-- Modelled from the spec: `tios_get_databits`. -/
def tios_get_databits (tio : RTios) : Int := tio.databits

/-- Modelled from the spec: `tios_set_databits`. -/
def tios_set_databits (tio : RTios) (v : Int) : RTios := { tio with databits := v }

/-- Modelled from the spec: `tios_get_parity`. -/
def tios_get_parity (tio : RTios) : Nat := tio.parity

/-- Modelled from the spec: `tios_set_parity`. -/
def tios_set_parity (tio : RTios) (v : Nat) : RTios := { tio with parity := v }

/-- Modelled from the spec: `tios_get_stopbits`. -/
def tios_get_stopbits (tio : RTios) : Int := tio.stopbits

/-- Modelled from the spec: `tios_set_stopbits`. -/
def tios_set_stopbits (tio : RTios) (v : Int) : RTios := { tio with stopbits := v }

/-- Modelled from the spec: `tios_get_flowcntrl`. -/
def tios_get_flowcntrl (tio : RTios) : Nat := tio.flow

/-- Modelled from the spec: `tios_set_flowcntrl`. -/
def tios_set_flowcntrl (tio : RTios) (v : Nat) : RTios := { tio with flow := v }

/-- TELNET protocol state (struct tn2217_state in src/tn2217.c). -/
structure TnState where
  opts         : Nat → QOption
  termios      : RTios
  modem        : Nat
  cmdbuf       : List Nat
  cmdiac       : Bool
  conf_pending : Int
  can_comport  : Bool
  set_termios  : Bool
  set_modem    : Bool
  configed     : Bool

/-- Update one option's Q state (the C code mutates `s->opt[opt]` in
place). -/
def setOpt (s : TnState) (opt : Nat) (q : QOption) : TnState :=
  { s with opts := fun o => if o = opt then q else s.opts o }

/-- A single socket write performed by the backend.  `neg cmd opt` is the
three-byte negotiation message {IAC, cmd, opt} written by
`remote_opt`/`local_opt`/`recv_opt`; `bytes bs` is any other
`writen_ni` call, with the exact bytes written. -/
inductive Out where
  | neg (cmd opt : Nat)
  | bytes (bs : List Nat)
deriving DecidableEq

/-- Wire bytes of one write. -/
def Out.wire : Out → List Nat
  | .neg cmd opt => [IAC, cmd, opt]
  | .bytes bs => bs

/-- The negotiation messages among a list of writes, as (command, option)
pairs. -/
def negMsgs (out : List Out) : List (Nat × Nat) :=
  out.filterMap fun o => match o with
    | .neg c p => some (c, p)
    | .bytes _ => none

/-! ## escape_write (src/tn2217.c lines 1353-1379): the IAC stream encoder.

The C function doubles instances of IAC by arranging for overlapping
writes: each write ends at an IAC and the next write starts at the same
IAC.  `memchrIAC` models `memchr(buf, IAC, len)` by returning the split
around the first IAC. -/

def memchrIAC : List Nat → Option (List Nat × List Nat)
  | [] => none
  | b :: bs =>
    if b = IAC then some ([], bs)
    else match memchrIAC bs with
      | some (pre, post) => some (b :: pre, post)
      | none => none

theorem memchrIAC_none {l : List Nat} (h : memchrIAC l = none) : IAC ∉ l := by
  induction l with
  | nil => simp
  | cons b bs ih =>
    simp only [memchrIAC] at h
    by_cases hb : b = IAC
    · simp [hb] at h
    · simp only [hb, if_false] at h
      cases hm : memchrIAC bs with
      | some x => rw [hm] at h; cases x; simp at h
      | none => simp [hb, Ne.symm hb, ih hm]

theorem memchrIAC_some {l pre post : List Nat}
    (h : memchrIAC l = some (pre, post)) :
    l = pre ++ IAC :: post ∧ IAC ∉ pre := by
  induction l generalizing pre with
  | nil => simp [memchrIAC] at h
  | cons b bs ih =>
    simp only [memchrIAC] at h
    by_cases hb : b = IAC
    · rw [if_pos hb] at h
      injection h with h
      injection h with h1 h2
      subst h2
      rw [← h1]
      simp [hb]
    · rw [if_neg hb] at h
      cases hm : memchrIAC bs with
      | some x =>
        obtain ⟨p, q⟩ := x
        rw [hm] at h
        injection h with h
        injection h with h1 h2
        subst h2
        rw [← h1]
        obtain ⟨e1, e2⟩ := ih hm
        refine ⟨by simp [e1], ?_⟩
        simp only [List.mem_cons, not_or]
        exact ⟨Ne.symm hb, e2⟩
      | none => rw [hm] at h; cases h

theorem memchrIAC_some_length {l pre post : List Nat}
    (h : memchrIAC l = some (pre, post)) : post.length < l.length := by
  obtain ⟨e, _⟩ := memchrIAC_some h
  subst e; simp; omega

/-- The loop of `escape_write` (src/tn2217.c lines 1362-1369), a direct
transliteration: `cur` is the suffix starting at the last-found IAC (so
`cur.head = IAC`).  Each iteration writes from that IAC through the next
IAC inclusive; the final write covers the rest. -/
def escape_tailC (cur : List Nat) : List (List Nat) :=
  match cur with
  | [] => [[]]
  | a :: rest =>
    match h : memchrIAC rest with
    | none => [a :: rest]
    | some (pre, post) =>
      (a :: (pre ++ [IAC])) :: escape_tailC (IAC :: post)
termination_by cur.length
decreasing_by
  simp only [List.length_cons]
  have := memchrIAC_some_length h
  omega

/-- The sequence of `writen_ni` calls performed by `escape_write` on `buf`
(src/tn2217.c lines 1353-1379), direct transliteration of the
memchr-driven loop. -/
def escape_writeC (buf : List Nat) : List (List Nat) :=
  match memchrIAC buf with
  | none => [buf]
  | some (pre, post) => (pre ++ [IAC]) :: escape_tailC (IAC :: post)

/-- Byte-at-a-time restatement of `escape_write`'s write pattern: `acc`
accumulates (reversed) the bytes of the chunk being built; reaching an IAC
closes the chunk with that IAC included and starts the next chunk at the
same IAC.  Structurally recursive, hence computable by the kernel; proved
equal to the direct transliteration `escape_writeC` below. -/
def escape_chunks_aux (acc : List Nat) : List Nat → List (List Nat)
  | [] => [acc.reverse]
  | b :: bs =>
    if b = IAC then (acc.reverse ++ [IAC]) :: escape_chunks_aux [IAC] bs
    else escape_chunks_aux (b :: acc) bs

/-- The sequence of socket writes performed by `escape_write buf`. -/
def escape_write_chunks (buf : List Nat) : List (List Nat) :=
  escape_chunks_aux [] buf

theorem escape_chunks_aux_noIAC {bs : List Nat} (acc : List Nat)
    (h : IAC ∉ bs) : escape_chunks_aux acc bs = [acc.reverse ++ bs] := by
  induction bs generalizing acc with
  | nil => simp [escape_chunks_aux]
  | cons b bs ih =>
    simp only [List.mem_cons, not_or] at h
    rw [escape_chunks_aux, if_neg (Ne.symm h.1)]
    rw [ih _ h.2]
    simp

theorem escape_chunks_aux_split {pre : List Nat} (acc post : List Nat)
    (h : IAC ∉ pre) :
    escape_chunks_aux acc (pre ++ IAC :: post) =
      (acc.reverse ++ pre ++ [IAC]) :: escape_chunks_aux [IAC] post := by
  induction pre generalizing acc with
  | nil => simp [escape_chunks_aux]
  | cons b bs ih =>
    simp only [List.mem_cons, not_or] at h
    rw [List.cons_append, escape_chunks_aux, if_neg (Ne.symm h.1)]
    rw [ih _ h.2]
    simp

theorem escape_tailC_eq :
    ∀ n post, post.length ≤ n →
      escape_tailC (IAC :: post) = escape_chunks_aux [IAC] post := by
  intro n
  induction n with
  | zero =>
    intro post hp
    have : post = [] := List.length_eq_zero.mp (Nat.le_zero.mp hp)
    subst this
    rw [escape_tailC]
    simp [memchrIAC, escape_chunks_aux]
  | succ n ih =>
    intro post hp
    rw [escape_tailC]
    cases hm : memchrIAC post with
    | none =>
      simp only
      rw [escape_chunks_aux_noIAC _ (memchrIAC_none hm)]
      simp
    | some x =>
      obtain ⟨pre, post2⟩ := x
      obtain ⟨e, hnin⟩ := memchrIAC_some hm
      simp only
      have hlen : post2.length ≤ n := by
        have := memchrIAC_some_length hm
        omega
      rw [ih post2 hlen, e, escape_chunks_aux_split _ _ hnin]
      simp

/-- The direct transliteration of `escape_write` and its byte-at-a-time
restatement produce exactly the same sequence of writes. -/
theorem escape_writeC_eq_chunks (buf : List Nat) :
    escape_writeC buf = escape_write_chunks buf := by
  unfold escape_writeC escape_write_chunks
  cases hm : memchrIAC buf with
  | none => rw [escape_chunks_aux_noIAC _ (memchrIAC_none hm)]; simp
  | some x =>
    obtain ⟨pre, post⟩ := x
    obtain ⟨e, hnin⟩ := memchrIAC_some hm
    show (pre ++ [IAC]) :: escape_tailC (IAC :: post) = escape_chunks_aux [] buf
    rw [escape_tailC_eq post.length post (le_refl _), e,
      escape_chunks_aux_split _ _ hnin]
    simp

/-- Specification-side description of the IAC codec: every IAC byte is
doubled, all other bytes pass through. -/
def doubleIAC (buf : List Nat) : List Nat :=
  buf.flatMap fun b => if b = IAC then [IAC, IAC] else [b]

theorem doubleIAC_append (xs ys : List Nat) :
    doubleIAC (xs ++ ys) = doubleIAC xs ++ doubleIAC ys := by
  simp [doubleIAC]

theorem doubleIAC_noIAC {xs : List Nat} (h : IAC ∉ xs) : doubleIAC xs = xs := by
  induction xs with
  | nil => rfl
  | cons b bs ih =>
    simp only [List.mem_cons, not_or] at h
    rw [doubleIAC]
    rw [List.flatMap_cons, if_neg (Ne.symm h.1)]
    have := ih h.2
    rw [doubleIAC] at this
    rw [this]
    rfl

theorem doubleIAC_cons (b : Nat) (bs : List Nat) :
    doubleIAC (b :: bs) =
      (if b = IAC then [IAC, IAC] else [b]) ++ doubleIAC bs := by
  simp [doubleIAC]

theorem escape_chunks_aux_flatten (acc bs : List Nat) :
    (escape_chunks_aux acc bs).flatten = acc.reverse ++ doubleIAC bs := by
  induction bs generalizing acc with
  | nil => simp [escape_chunks_aux, doubleIAC]
  | cons b bs ih =>
    rw [escape_chunks_aux]
    by_cases hb : b = IAC
    · rw [if_pos hb, List.flatten_cons, ih [IAC], doubleIAC_cons, if_pos hb]
      subst hb
      simp
    · rw [if_neg hb, ih (b :: acc), doubleIAC_cons, if_neg hb]
      simp

/-- The bytes put on the wire by `escape_write buf` are exactly `buf` with
each IAC doubled. -/
theorem escape_write_chunks_flatten (buf : List Nat) :
    (escape_write_chunks buf).flatten = doubleIAC buf := by
  unfold escape_write_chunks
  rw [escape_chunks_aux_flatten]
  simp

/-! ## COM-PORT suboption senders (src/tn2217.c lines 593-805)

`writen_ni` never fails in the model (socket writes are collected in the
output list), so the error paths of the senders do not arise. -/

/-- comport_send_cmd: sends {IAC SB COMPORT cmd} , the escaped data, and
{IAC SE}. -/
def comport_send_cmd (cmd : Nat) (data : List Nat) : List Out :=
  Out.bytes [IAC, SB, TELOPT_COMPORT, cmd] ::
    ((if data.length ≠ 0 then (escape_write_chunks data).map Out.bytes else []) ++
      [Out.bytes [IAC, SE]])

/-- comport_send_cmd1: single data byte. -/
def comport_send_cmd1 (cmd : Nat) (data : Nat) : List Out :=
  comport_send_cmd cmd [data]

/-- comport_send_cmd4: 4-byte big-endian integer argument. -/
def comport_send_cmd4 (cmd : Nat) (val : Nat) : List Out :=
  comport_send_cmd cmd
    [(val >>> 24) &&& 0xff, (val >>> 16) &&& 0xff, (val >>> 8) &&& 0xff, val &&& 0xff]

/-- comport_send_set_baudrate (src/tn2217.c lines 638-651). -/
def comport_send_set_baudrate (s : TnState) (speed : Int) : TnState × List Out :=
  if 0 ≤ speed then
    ({ s with conf_pending := s.conf_pending + 1 },
     comport_send_cmd4 COMPORT_SET_BAUDRATE speed.toNat)
  else (s, [])

/-- comport_send_set_datasize (src/tn2217.c lines 653-671). -/
def comport_send_set_datasize (s : TnState) (databits : Int) : TnState × List Out :=
  let val := if databits = 5 then COMPORT_DATASIZE_5
    else if databits = 6 then COMPORT_DATASIZE_6
    else if databits = 7 then COMPORT_DATASIZE_7
    else COMPORT_DATASIZE_8
  ({ s with conf_pending := s.conf_pending + 1 },
   comport_send_cmd1 COMPORT_SET_DATASIZE val)

/-- comport_send_set_parity (src/tn2217.c lines 673-690). -/
def comport_send_set_parity (s : TnState) (parity : Nat) : TnState × List Out :=
  let val := if parity = P_ODD then COMPORT_PARITY_ODD
    else if parity = P_EVEN then COMPORT_PARITY_EVEN
    else COMPORT_PARITY_NONE
  ({ s with conf_pending := s.conf_pending + 1 },
   comport_send_cmd1 COMPORT_SET_PARITY val)

/-- comport_send_set_stopsize (src/tn2217.c lines 692-707). -/
def comport_send_set_stopsize (s : TnState) (stopbits : Int) : TnState × List Out :=
  let out := if stopbits = 2 then comport_send_cmd1 COMPORT_SET_STOPSIZE COMPORT_STOPSIZE_2
    else comport_send_cmd1 COMPORT_SET_STOPSIZE COMPORT_STOPSIZE_1
  ({ s with conf_pending := s.conf_pending + 1 }, out)

/-- comport_send_set_fc (src/tn2217.c lines 709-733). -/
def comport_send_set_fc (s : TnState) (flow : Nat) : TnState × List Out :=
  let val := if flow = FC_RTSCTS then COMPORT_CONTROL_FC_HARDWARE
    else if flow = FC_XONXOFF then COMPORT_CONTROL_FC_XONOFF
    else COMPORT_CONTROL_FC_NONE
  ({ s with conf_pending := s.conf_pending + 1 },
   comport_send_cmd1 COMPORT_SET_CONTROL val)

/-- comport_send_set_dtr (src/tn2217.c lines 735-746): no conf_pending
change. -/
def comport_send_set_dtr (modem : Nat) : List Out :=
  comport_send_cmd1 COMPORT_SET_CONTROL
    (if modem &&& TIOCM_DTR ≠ 0 then COMPORT_CONTROL_DTR_ON else COMPORT_CONTROL_DTR_OFF)

/-- comport_send_set_rts (src/tn2217.c lines 748-759). -/
def comport_send_set_rts (modem : Nat) : List Out :=
  comport_send_cmd1 COMPORT_SET_CONTROL
    (if modem &&& TIOCM_RTS ≠ 0 then COMPORT_CONTROL_RTS_ON else COMPORT_CONTROL_RTS_OFF)

/-- comport_config_port (src/tn2217.c lines 762-805): with a termios,
sends the five SET commands for its settings; without one, sends the five
REQUEST queries.  Each path increments conf_pending once per command sent
(the baud-rate SET is skipped for a negative baud rate). -/
def comport_config_port (s : TnState) (tios : Option RTios) : TnState × List Out :=
  match tios with
  | some tio =>
    let r1 := comport_send_set_baudrate s (tios_get_baudrate tio)
    let r2 := comport_send_set_datasize r1.1 (tios_get_databits tio)
    let r3 := comport_send_set_parity r2.1 (tios_get_parity tio)
    let r4 := comport_send_set_stopsize r3.1 (tios_get_stopbits tio)
    let r5 := comport_send_set_fc r4.1 (tios_get_flowcntrl tio)
    (r5.1, r1.2 ++ r2.2 ++ r3.2 ++ r4.2 ++ r5.2)
  | none =>
    let o1 := comport_send_cmd4 COMPORT_SET_BAUDRATE COMPORT_BAUDRATE_REQUEST
    let o2 := comport_send_cmd1 COMPORT_SET_DATASIZE COMPORT_DATASIZE_REQUEST
    let o3 := comport_send_cmd1 COMPORT_SET_PARITY COMPORT_PARITY_REQUEST
    let o4 := comport_send_cmd1 COMPORT_SET_STOPSIZE COMPORT_STOPSIZE_REQUEST
    let o5 := comport_send_cmd1 COMPORT_SET_CONTROL COMPORT_CONTROL_FC_REQUEST
    ({ s with conf_pending := s.conf_pending + 5 }, o1 ++ o2 ++ o3 ++ o4 ++ o5)

/-- comport_start (src/tn2217.c lines 807-851): fires when the COM-PORT
option first becomes enabled locally. -/
def comport_start (s : TnState) : TnState × List Out :=
  let o1 := comport_send_cmd COMPORT_SIGNATURE []
  let o2 := comport_send_cmd1 COMPORT_SET_LINESTATE_MASK 0
  let o3 := comport_send_cmd1 COMPORT_SET_MODEMSTATE_MASK MODEMSTATE_MASK
  let r4 :=
    if s.set_termios then comport_config_port s (some s.termios)
    else comport_config_port s none
  let o5 :=
    if s.set_modem then comport_send_set_dtr s.modem ++ comport_send_set_rts s.modem
    else comport_send_cmd1 COMPORT_SET_CONTROL COMPORT_CONTROL_DTR_REQUEST ++
         comport_send_cmd1 COMPORT_SET_CONTROL COMPORT_CONTROL_RTS_REQUEST
  let o6 := comport_send_cmd1 COMPORT_SET_CONTROL COMPORT_CONTROL_BREAK_REQUEST
  (r4.1, o1 ++ o2 ++ o3 ++ r4.2 ++ o5 ++ o6)

/-- check_options_changed (src/tn2217.c lines 252-270): detects the first
time the COM-PORT option becomes enabled locally and triggers
comport_start exactly once. -/
def check_options_changed (s : TnState) (opt : Nat) : TnState × List Out :=
  if ¬s.can_comport ∧ (s.opts TELOPT_COMPORT).us = YES then
    comport_start { s with can_comport := true }
  else (s, [])

/-! ## RFC1143 driving operations (src/tn2217.c lines 272-322)

`remote_opt` starts the protocol to enable/disable a peer option
(sends DO/DONT), `local_opt` a local option (sends WILL/WONT).
Note the C condition is written `if (q->him == want ? NO : YES)`, which by
C operator precedence is `(q->him == want) ? NO : YES`, i.e. it holds
exactly when `q->him != want`; the translation preserves this. -/

def remote_opt (s : TnState) (opt want : Nat) : TnState × List Out :=
  let q := s.opts opt
  if (if q.him = want then NO else YES) ≠ 0 then
    let s := setOpt s opt { q with him := if want ≠ 0 then WANTYES else WANTNO }
    let r := check_options_changed s opt
    (r.1, Out.neg (if want ≠ 0 then DO else DONT) opt :: r.2)
  else if q.him = WANTNO then
    let s := setOpt s opt { q with himq := if want ≠ 0 then OPPOSITE else EMPTY }
    check_options_changed s opt
  else if q.him = WANTYES then
    let s := setOpt s opt { q with himq := if want ≠ 0 then EMPTY else OPPOSITE }
    check_options_changed s opt
  else
    check_options_changed s opt

def local_opt (s : TnState) (opt want : Nat) : TnState × List Out :=
  let q := s.opts opt
  if (if q.us = want then NO else YES) ≠ 0 then
    let s := setOpt s opt { q with us := if want ≠ 0 then WANTYES else WANTNO }
    let r := check_options_changed s opt
    (r.1, Out.neg (if want ≠ 0 then WILL else WONT) opt :: r.2)
  else if q.us = WANTNO then
    let s := setOpt s opt { q with usq := if want ≠ 0 then OPPOSITE else EMPTY }
    check_options_changed s opt
  else if q.us = WANTYES then
    let s := setOpt s opt { q with usq := if want ≠ 0 then EMPTY else OPPOSITE }
    check_options_changed s opt
  else
    check_options_changed s opt

/-- remote_should (src/tn2217.c lines 488-495): should the remote enable
its option if it tells us it WILL? -/
def remote_should (opt : Nat) : Bool :=
  opt = TELOPT_BINARY ∨ opt = TELOPT_ECHO ∨ opt = TELOPT_SGA

/-- local_should (src/tn2217.c lines 497-504): should we enable a local
option if the remote asks us to DO? -/
def local_should (opt : Nat) : Bool :=
  opt = TELOPT_BINARY ∨ opt = TELOPT_SGA ∨ opt = TELOPT_COMPORT

/-- recv_opt (src/tn2217.c lines 324-423): receive WILL/WONT/DO/DONT and
update the Q state, replying with at most one message (RFC1143 table). -/
def recv_opt (s : TnState) (op opt : Nat) : TnState × List Out :=
  let q := s.opts opt
  let qr : QOption × Nat :=
    if op = WILL then
      if q.him = NO then
        if remote_should opt then ({ q with him := YES }, DO)
        else (q, DONT)
      else if q.him = WANTNO then
        ({ q with him := if q.himq = EMPTY then NO else YES, himq := EMPTY }, 0)
      else if q.him = WANTYES then
        if q.himq = EMPTY then ({ q with him := YES }, 0)
        else ({ q with him := WANTNO, himq := EMPTY }, DONT)
      else (q, 0)
    else if op = WONT then
      if q.him = YES then ({ q with him := NO }, DONT)
      else if q.him = WANTNO then
        if q.himq = EMPTY then ({ q with him := NO }, 0)
        else ({ q with him := WANTYES, himq := EMPTY }, DO)
      else if q.him = WANTYES then ({ q with him := NO, himq := EMPTY }, 0)
      else (q, 0)
    else if op = DO then
      if q.us = NO then
        if local_should opt then ({ q with us := YES }, WILL)
        else (q, WONT)
      else if q.us = WANTNO then
        ({ q with us := if q.usq = EMPTY then NO else YES, usq := EMPTY }, 0)
      else if q.us = WANTYES then
        if q.usq = EMPTY then ({ q with us := YES }, 0)
        else ({ q with us := WANTNO, usq := EMPTY }, WONT)
      else (q, 0)
    else if op = DONT then
      if q.us = YES then ({ q with us := NO }, WONT)
      else if q.us = WANTNO then
        if q.usq = EMPTY then ({ q with us := NO }, 0)
        else ({ q with us := WANTYES, usq := EMPTY }, WILL)
      else if q.us = WANTYES then ({ q with us := NO, usq := EMPTY }, 0)
      else (q, 0)
    else (q, 0)
  let s := setOpt s opt qr.1
  let out1 := if qr.2 ≠ 0 then [Out.neg qr.2 opt] else []
  let r := check_options_changed s opt
  (r.1, out1 ++ r.2)

/-- Modelled from the spec: the SIGNATURE text payload ("picocom v" plus
the version string; src/version.h is not among the sources).  Its exact
bytes are immaterial to every claim; we use the ASCII bytes of
"picocom". -/
def signature_data : List Nat := ("picocom".toList).map Char.toNat

/-- comport_recv_cmd (src/tn2217.c lines 854-1016): handle a received
{IAC SB COMPORT cmd data IAC SE} command.  Server replies use command
codes offset by COMPORT_SERVER_BASE. -/
def comport_recv_cmd (s : TnState) (cmd : Nat) (data : List Nat) : TnState × List Out :=
  if cmd < COMPORT_SERVER_BASE then (s, [])
  else
    let cmd := cmd - COMPORT_SERVER_BASE
    if cmd = COMPORT_SIGNATURE then
      if data.length ≠ 0 then (s, [])
      else (s, comport_send_cmd COMPORT_SIGNATURE signature_data)
    else if cmd = COMPORT_SET_BAUDRATE then
      let s :=
        if 4 ≤ data.length then
          let baud := ((data.getD 0 0) <<< 24) ||| ((data.getD 1 0) <<< 16) |||
                      ((data.getD 2 0) <<< 8) ||| data.getD 3 0
          { s with termios := tios_set_baudrate_always s.termios baud }
        else s
      ({ s with conf_pending := s.conf_pending - 1 }, [])
    else if cmd = COMPORT_SET_DATASIZE then
      let s :=
        if 1 ≤ data.length then
          let d := data.getD 0 0
          let val : Int := if d = COMPORT_DATASIZE_5 then 5
            else if d = COMPORT_DATASIZE_6 then 6
            else if d = COMPORT_DATASIZE_7 then 7
            else if d = COMPORT_DATASIZE_8 then 8
            else 0
          { s with termios := tios_set_databits s.termios val }
        else s
      ({ s with conf_pending := s.conf_pending - 1 }, [])
    else if cmd = COMPORT_SET_PARITY then
      let s :=
        if 1 ≤ data.length then
          let d := data.getD 0 0
          let val : Nat := if d = COMPORT_PARITY_NONE then P_NONE
            else if d = COMPORT_PARITY_ODD then P_ODD
            else if d = COMPORT_PARITY_EVEN then P_EVEN
            else P_ERROR
          { s with termios := tios_set_parity s.termios val }
        else s
      ({ s with conf_pending := s.conf_pending - 1 }, [])
    else if cmd = COMPORT_SET_STOPSIZE then
      let s :=
        if 1 ≤ data.length then
          let d := data.getD 0 0
          let val : Int := if d = COMPORT_STOPSIZE_1 then 1
            else if d = COMPORT_STOPSIZE_2 then 2
            else 0
          { s with termios := tios_set_stopbits s.termios val }
        else s
      ({ s with conf_pending := s.conf_pending - 1 }, [])
    else if cmd = COMPORT_SET_CONTROL then
      if 1 ≤ data.length then
        let d := data.getD 0 0
        if d = COMPORT_CONTROL_FC_XONOFF then
          ({ s with termios := tios_set_flowcntrl s.termios FC_XONXOFF,
                    conf_pending := s.conf_pending - 1 }, [])
        else if d = COMPORT_CONTROL_FC_HARDWARE then
          ({ s with termios := tios_set_flowcntrl s.termios FC_RTSCTS,
                    conf_pending := s.conf_pending - 1 }, [])
        else if d = COMPORT_CONTROL_FC_NONE ∨ d = COMPORT_CONTROL_FC_DCD ∨
                d = COMPORT_CONTROL_FC_DSR then
          ({ s with termios := tios_set_flowcntrl s.termios FC_NONE,
                    conf_pending := s.conf_pending - 1 }, [])
        else if d = COMPORT_CONTROL_DTR_ON ∨ d = COMPORT_CONTROL_DTR_OFF then
          let val := if d = COMPORT_CONTROL_DTR_ON then TIOCM_DTR else 0
          ({ s with modem := bclr s.modem TIOCM_DTR ||| val }, [])
        else if d = COMPORT_CONTROL_RTS_ON ∨ d = COMPORT_CONTROL_RTS_OFF then
          let val := if d = COMPORT_CONTROL_RTS_ON then TIOCM_RTS else 0
          ({ s with modem := bclr s.modem TIOCM_RTS ||| val }, [])
        else (s, [])
      else (s, [])
    else if cmd = COMPORT_NOTIFY_MODEMSTATE then
      if 1 ≤ data.length then
        let d := data.getD 0 0
        let val := (if d &&& COMPORT_MODEM_CD ≠ 0 then TIOCM_CD else 0) |||
                   (if d &&& COMPORT_MODEM_RI ≠ 0 then TIOCM_RI else 0) |||
                   (if d &&& COMPORT_MODEM_DSR ≠ 0 then TIOCM_DSR else 0) |||
                   (if d &&& COMPORT_MODEM_CTS ≠ 0 then TIOCM_CTS else 0)
        let m := bclr s.modem (TIOCM_CD ||| TIOCM_RI ||| TIOCM_DSR ||| TIOCM_CTS) ||| val
        ({ s with modem := m }, [])
      else (s, [])
    else (s, [])

/-- Model of recv_cmd_partial (src/tn2217.c lines 425-486; renamed here): process the byte the
caller just appended to `cmdbuf`.  Completion of a command is signalled
by clearing `cmdbuf`; an incomplete command leaves it accumulating. -/
def recv_cmd_byte (s : TnState) : TnState × List Out :=
  let cmd := s.cmdbuf
  let c1 := cmd.getD 1 0
  if c1 = WILL ∨ c1 = WONT ∨ c1 = DO ∨ c1 = DONT then
    if cmd.length < 3 then (s, [])
    else
      let r := recv_opt s c1 (cmd.getD 2 0)
      ({ r.1 with cmdbuf := [] }, r.2)
  else if c1 = SB then
    if cmd.length < 3 then ({ s with cmdiac := false }, [])
    else if ¬s.cmdiac ∧ cmd.getLast? = some IAC then
      ({ s with cmdiac := true, cmdbuf := cmd.dropLast }, [])
    else if ¬s.cmdiac then (s, [])
    else
      let s := { s with cmdiac := false }
      if cmd.getLast? = some IAC then (s, [])
      else if cmd.getLast? ≠ some SE then ({ s with cmdbuf := [] }, [])
      else
        let body := cmd.dropLast
        if 4 ≤ body.length ∧ body.getD 2 0 = TELOPT_COMPORT then
          let r := comport_recv_cmd s (body.getD 3 0) (body.drop 4)
          ({ r.1 with cmdbuf := [] }, r.2)
        else ({ s with cmdbuf := [] }, [])
  else ({ s with cmdbuf := [] }, [])

/-! ## read_and_proc (src/tn2217.c lines 1251-1328)

The processing loop of `read_and_proc` walks the bytes obtained from
`read(2)`: while the command accumulator is non-empty it appends bytes one
at a time (handling {IAC IAC} escapes and feeding `recv_cmd_byte`);
otherwise it scans with `memchr` for the next IAC, copying out the user
data before it.  `proc_loopC` is the direct transliteration;
`proc_loop1`/`proc_loop` is the byte-at-a-time restatement (structurally
recursive, hence kernel-computable), proved equal below.  Results are
(final state, extracted user data, socket writes). -/

def proc_loopC (s : TnState) (input : List Nat) : TnState × List Nat × List Out :=
  match input with
  | [] => (s, [], [])
  | b :: rest =>
    if s.cmdbuf ≠ [] ∧ s.cmdbuf.length < 31 then
      -- append to the command accumulator (capacity check: sizeof - 1 = 31)
      let cb := s.cmdbuf ++ [b]
      if cb.length = 2 ∧ b = IAC then
        -- {IAC IAC} escaping handled immediately
        let r := proc_loopC { s with cmdbuf := [] } rest
        (r.1, IAC :: r.2.1, r.2.2)
      else
        let t := recv_cmd_byte { s with cmdbuf := cb }
        let r := proc_loopC t.1 rest
        (r.1, r.2.1, t.2 ++ r.2.2)
    else
      -- not in a command (or accumulator abandoned on overflow):
      -- memchr for the start of one
      let s0 := { s with cmdbuf := [] }
      match h : memchrIAC (b :: rest) with
      | some (pre, post) =>
        let r := proc_loopC { s0 with cmdbuf := [IAC] } post
        (r.1, pre ++ r.2.1, r.2.2)
      | none => (s0, b :: rest, [])
termination_by input.length
decreasing_by
  · simp
  · simp
  · have := memchrIAC_some_length h
    omega

/-- One byte of `read_and_proc` processing. -/
def proc_loop1 (s : TnState) (b : Nat) : TnState × List Nat × List Out :=
  if s.cmdbuf ≠ [] ∧ s.cmdbuf.length < 31 then
    let cb := s.cmdbuf ++ [b]
    if cb.length = 2 ∧ b = IAC then ({ s with cmdbuf := [] }, [IAC], [])
    else
      let t := recv_cmd_byte { s with cmdbuf := cb }
      (t.1, [], t.2)
  else
    let s0 := { s with cmdbuf := [] }
    if b = IAC then ({ s0 with cmdbuf := [IAC] }, [], [])
    else (s0, [b], [])

/-- Byte-at-a-time restatement of the `read_and_proc` loop. -/
def proc_loop (s : TnState) : List Nat → TnState × List Nat × List Out
  | [] => (s, [], [])
  | b :: rest =>
    let r1 := proc_loop1 s b
    let r2 := proc_loop r1.1 rest
    (r2.1, r1.2.1 ++ r2.2.1, r1.2.2 ++ r2.2.2)

theorem TnState.eta_cmdbuf {s : TnState} (h : s.cmdbuf = []) :
    { s with cmdbuf := [] } = s := by
  cases s
  simp_all

theorem proc_loop_noIAC {input : List Nat} (s : TnState)
    (hs : s.cmdbuf = []) (h : IAC ∉ input) :
    proc_loop s input = (s, input, []) := by
  induction input with
  | nil => simp [proc_loop]
  | cons b rest ih =>
    simp only [List.mem_cons, not_or] at h
    rw [proc_loop]
    have h1 : proc_loop1 s b = (s, [b], []) := by
      rw [proc_loop1, if_neg (by simp [hs]), if_neg (Ne.symm h.1)]
      rw [TnState.eta_cmdbuf hs]
    rw [h1, ih h.2]
    simp

theorem proc_loop_scan :
    ∀ (pre : List Nat), IAC ∉ pre → ∀ (post : List Nat) (s0 : TnState),
      ¬(s0.cmdbuf ≠ [] ∧ s0.cmdbuf.length < 31) →
      proc_loop s0 (pre ++ IAC :: post) =
        ((proc_loop { s0 with cmdbuf := [IAC] } post).1,
         pre ++ (proc_loop { s0 with cmdbuf := [IAC] } post).2.1,
         (proc_loop { s0 with cmdbuf := [IAC] } post).2.2) := by
  intro pre
  induction pre with
  | nil =>
    intro _ post s0 hc0
    simp only [List.nil_append]
    rw [proc_loop]
    have h1 : proc_loop1 s0 IAC = ({ s0 with cmdbuf := [IAC] }, [], []) := by
      rw [proc_loop1, if_neg hc0]
      simp
    rw [h1]
    simp
  | cons p ps ihp =>
    intro hnin post s0 hc0
    simp only [List.mem_cons, not_or] at hnin
    simp only [List.cons_append]
    rw [proc_loop]
    have h1 : proc_loop1 s0 p = ({ s0 with cmdbuf := [] }, [p], []) := by
      rw [proc_loop1, if_neg hc0, if_neg (Ne.symm hnin.1)]
    have hc1 : ¬(({ s0 with cmdbuf := [] } : TnState).cmdbuf ≠ [] ∧
        ({ s0 with cmdbuf := [] } : TnState).cmdbuf.length < 31) := by
      simp
    rw [h1, ihp hnin.2 post { s0 with cmdbuf := [] } hc1]
    rfl

theorem proc_loop_scan0 (input : List Nat) (h : IAC ∉ input) (s0 : TnState)
    (hc0 : ¬(s0.cmdbuf ≠ [] ∧ s0.cmdbuf.length < 31)) (hne : input ≠ []) :
    proc_loop s0 input = ({ s0 with cmdbuf := [] }, input, []) := by
  match input with
  | b :: rest =>
    simp only [List.mem_cons, not_or] at h
    rw [proc_loop]
    have h1 : proc_loop1 s0 b = ({ s0 with cmdbuf := [] }, [b], []) := by
      rw [proc_loop1, if_neg hc0, if_neg (Ne.symm h.1)]
    rw [h1, proc_loop_noIAC { s0 with cmdbuf := [] } rfl h.2]
    simp

theorem proc_loopC_eq_aux :
    ∀ (n : Nat) (s : TnState) (input : List Nat), input.length ≤ n →
      proc_loopC s input = proc_loop s input := by
  intro n
  induction n with
  | zero =>
    intro s input hlen
    have : input = [] := List.length_eq_zero.mp (Nat.le_zero.mp hlen)
    subst this
    rw [proc_loopC]
    rfl
  | succ n ih =>
    intro s input hlen
    match input with
    | [] => rw [proc_loopC]; rfl
    | b :: rest =>
      have hrest : rest.length ≤ n := by
        simp only [List.length_cons] at hlen
        omega
      rw [proc_loopC]
      by_cases hc : s.cmdbuf ≠ [] ∧ s.cmdbuf.length < 31
      · rw [if_pos hc]
        by_cases h2 : (s.cmdbuf ++ [b]).length = 2 ∧ b = IAC
        · rw [if_pos h2]
          dsimp only
          rw [ih _ rest hrest]
          conv_rhs => rw [proc_loop]
          simp only [proc_loop1, if_pos hc, if_pos h2]
          simp
        · rw [if_neg h2]
          dsimp only
          rw [ih _ rest hrest]
          conv_rhs => rw [proc_loop]
          simp only [proc_loop1, if_pos hc, if_neg h2]
          simp
      · rw [if_neg hc]
        cases hm : memchrIAC (b :: rest) with
        | some x =>
          obtain ⟨pre, post⟩ := x
          dsimp only
          obtain ⟨e, hnin⟩ := memchrIAC_some hm
          rw [show b :: rest = pre ++ IAC :: post from e,
            proc_loop_scan pre hnin post s hc]
          have hlen2 : post.length ≤ n := by
            have h3 := memchrIAC_some_length hm
            simp only [List.length_cons] at h3
            omega
          rw [ih _ post hlen2]
        | none =>
          dsimp only
          have hnin := memchrIAC_none hm
          rw [proc_loop_scan0 (b :: rest) hnin s hc (by simp)]

/-- The direct transliteration of the read_and_proc loop agrees with its
byte-at-a-time restatement. -/
theorem proc_loopC_eq_loop (s : TnState) (input : List Nat) :
    proc_loopC s input = proc_loop s input :=
  proc_loopC_eq_aux input.length s input (le_refl _)

/-- Result of read_and_proc / tn2217_read.  `eof` models a zero return
(end of stream); `einput again` models a -1 return with
term_errno = TERM_EINPUT, where `again` says whether errno = EAGAIN (the
"no data yet" signal); `etimedout` models a -1 return with
term_errno = TERM_ETIMEDOUT; `data bs` models a positive return with the
extracted user bytes. -/
inductive RdRes where
  | eof
  | einput (again : Bool)
  | etimedout
  | data (bs : List Nat)
deriving DecidableEq

/-- read_and_proc (src/tn2217.c lines 1251-1328).  `chunk` is what
`read(2)` returned (empty list = read returned 0). -/
def read_and_proc (s : TnState) (chunk : List Nat) : RdRes × TnState × List Out :=
  if chunk.isEmpty then (RdRes.eof, s, [])
  else
    let r := proc_loop s chunk
    if r.2.1.isEmpty then (RdRes.einput true, r.1, r.2.2)
    else (RdRes.data r.2.1, r.1, r.2.2)

/-- cond_initial_conf_complete (src/tn2217.c lines 1180-1194): latches
`configed` the first time COM-PORT is enabled with no pending
configuration replies. -/
def cond_initial_conf_complete (s : TnState) : Bool × TnState :=
  if s.configed then (true, s)
  else if s.can_comport ∧ s.conf_pending = 0 then (true, { s with configed := true })
  else (false, s)

/-- cond_comport_start (src/tn2217.c lines 1196-1203). -/
def cond_comport_start (s : TnState) : Bool × TnState :=
  (s.can_comport, s)

/-- A socket readiness event during wait_cond's select loop: one readable
byte, or the peer closing the stream (read returns 0). -/
inductive SockEv where
  | avail (b : Nat)
  | eofEv
deriving DecidableEq

/-- Result of wait_cond: condition satisfied, read returned zero, other
read error, or timeout expiry (term_errno = TERM_ETIMEDOUT). -/
inductive WaitRes where
  | ok
  | eofRd
  | errRd
  | timedout
deriving DecidableEq

/-- wait_cond (src/tn2217.c lines 1205-1247): keep reading single bytes
from the socket and processing commands until the condition holds or the
timeout expires.  Passage of time is modelled by the event list: each
loop iteration consumes one event, and exhaustion of the list is the
expiry of the timeout (the C code returns -1 with
term_errno = TERM_ETIMEDOUT). -/
def wait_cond (cond : TnState → Bool × TnState) :
    TnState → List SockEv → WaitRes × TnState × List Out
  | s, [] =>
    let c := cond s
    if c.1 then (WaitRes.ok, c.2, [])
    else (WaitRes.timedout, c.2, [])
  | s, ev :: rest =>
    let c := cond s
    if c.1 then (WaitRes.ok, c.2, [])
    else
      match ev with
      | SockEv.eofEv =>
        -- read(2) returns 0: read_and_proc returns 0, wait_cond returns it
        (WaitRes.eofRd, c.2, [])
      | SockEv.avail b =>
        let t := read_and_proc c.2 [b]
        match t.1 with
        | RdRes.eof => (WaitRes.eofRd, t.2.1, t.2.2)
        | RdRes.einput again =>
          if again then
            let w := wait_cond cond t.2.1 rest
            (w.1, w.2.1, t.2.2 ++ w.2.2)
          else (WaitRes.errRd, t.2.1, t.2.2)
        | RdRes.etimedout => (WaitRes.errRd, t.2.1, t.2.2)
        | RdRes.data _ =>
          -- data byte read and discarded
          let w := wait_cond cond t.2.1 rest
          (w.1, w.2.1, t.2.2 ++ w.2.2)

/-- tn2217_read (src/tn2217.c lines 1330-1351).  If an initial
configuration was requested (`set_termios`) and is not complete, waits
(up to 5000 msec) for completion before reading; `chunk` is what the
final `read(2)` returns once the wait (if any) succeeds. -/
def tn2217_read (s : TnState) (evs : List SockEv) (chunk : List Nat) :
    RdRes × TnState × List Out :=
  if s.set_termios then
    let c := cond_initial_conf_complete s
    if ¬c.1 then
      let w := wait_cond cond_initial_conf_complete c.2 evs
      match w.1 with
      | WaitRes.ok =>
        let r := read_and_proc w.2.1 chunk
        (r.1, r.2.1, w.2.2 ++ r.2.2)
      | WaitRes.eofRd => (RdRes.eof, w.2.1, w.2.2)
      | WaitRes.errRd => (RdRes.einput false, w.2.1, w.2.2)
      | WaitRes.timedout => (RdRes.etimedout, w.2.1, w.2.2)
    else read_and_proc c.2 chunk
  else read_and_proc s chunk

/-- Result of tn2217_write: success with the byte count, or the mapped
error returns (-1 with TERM_ETIMEDOUT on wait_cond timeout, -1 with
TERM_ERDZERO if the wait saw end-of-stream, -1 otherwise). -/
inductive WrRes where
  | ok (n : Nat)
  | etimedout
  | erdzero
  | errOther
deriving DecidableEq

/-- tn2217_write (src/tn2217.c lines 1382-1404).  If an initial
configuration was requested and COM-PORT is not yet usable, waits (up to
5000 msec) for `cond_comport_start`; then writes the buffer through
`escape_write`. -/
def tn2217_write (s : TnState) (evs : List SockEv) (buf : List Nat) :
    WrRes × TnState × List Out :=
  if s.set_termios ∧ ¬(cond_comport_start s).1 then
    let w := wait_cond cond_comport_start s evs
    match w.1 with
    | WaitRes.ok =>
      (WrRes.ok buf.length, w.2.1, w.2.2 ++ (escape_write_chunks buf).map Out.bytes)
    | WaitRes.eofRd => (WrRes.erdzero, w.2.1, w.2.2)
    | WaitRes.errRd => (WrRes.errOther, w.2.1, w.2.2)
    | WaitRes.timedout => (WrRes.etimedout, w.2.1, w.2.2)
  else (WrRes.ok buf.length, s, (escape_write_chunks buf).map Out.bytes)

/-- The freshly calloc'd protocol state of tn2217_init (src/tn2217.c
lines 1019-1056) before the initial negotiations are started: all options
at NO/NO with empty queues, a raw predicted termios with baud rate B0
("unknown"), DTR and RTS assumed asserted. -/
def initState : TnState where
  opts := fun _ => { us := NO, him := NO, usq := EMPTY, himq := EMPTY }
  termios := { baudrate := 0, databits := 8, parity := P_NONE, stopbits := 1, flow := FC_NONE }
  modem := TIOCM_DTR ||| TIOCM_RTS
  cmdbuf := []
  cmdiac := false
  conf_pending := 0
  can_comport := false
  set_termios := false
  set_modem := false
  configed := false

/-! ## src/term.c: the terminal registry and baud-rate translation

`struct termios` for the local backend is modelled with its flag words,
control characters and the POSIX-abstract input/output speed codes
(`cfgetospeed`/`cfsetospeed` access).  The device behind a descriptor is
modelled as a map from descriptors to termios that echoes applied
settings (`tcsetattr` followed by `tcgetattr` reads back what was set) —
the claims' stated assumption for the round-trip properties. -/

/-- HUPCL flag bit of c_cflag (Linux asm/termbits.h: 0002000 octal). -/
def HUPCL : Nat := 1024

structure Termios where
  c_iflag : Nat
  c_oflag : Nat
  c_cflag : Nat
  c_lflag : Nat
  c_cc    : List Nat
  ispeed  : Nat
  ospeed  : Nat
deriving DecidableEq

/-- One slot of the static `term[MAX_TERMS]` array (struct term_s,
src/termint.h); `fd = -1` marks a free slot. -/
structure TermSlot where
  fd          : Int
  origtermios : Termios
  currtermios : Termios
  nexttermios : Termios
deriving DecidableEq

def zeroTermios : Termios :=
  { c_iflag := 0, c_oflag := 0, c_cflag := 0, c_lflag := 0, c_cc := [], ispeed := 0, ospeed := 0 }

/-- The registry: `term_initted` plus the `term[MAX_TERMS]` array. -/
structure Registry where
  initted : Bool
  terms   : List TermSlot
deriving DecidableEq

def MAX_TERMS : Nat := 16

/-- The device state: what `tcgetattr` on a descriptor returns.  The
device echoes applied settings. -/
def Dev := Int → Termios

/-- Apply `tcsetattr` on the echo device. -/
def devSet (dev : Dev) (fd : Int) (tio : Termios) : Dev :=
  fun f => if f = fd then tio else dev f

/-- Library error-condition codes (enum term_errno_e, src/term.h). -/
inductive TermErr where
  | enoinit
  | efull
  | enotfound
  | eexists
  | egetattr
  | esetattr
  | ebaud
  | egetspeed
deriving DecidableEq

/-- The scan of `term[]` for the first slot with the given fd, returning
the slots before it, the slot, and the slots after (the loops in
term_find/term_new, src/term.c). -/
def findSlot (fd : Int) : List TermSlot → Option (List TermSlot × TermSlot × List TermSlot)
  | [] => none
  | t :: ts =>
    if t.fd = fd then some ([], t, ts)
    else match findSlot fd ts with
      | some (pre, u, post) => some (t :: pre, u, post)
      | none => none

theorem findSlot_none {fd : Int} {l : List TermSlot}
    (h : findSlot fd l = none) : ∀ t ∈ l, t.fd ≠ fd := by
  induction l with
  | nil => simp
  | cons t ts ih =>
    simp only [findSlot] at h
    by_cases ht : t.fd = fd
    · simp [ht] at h
    · rw [if_neg ht] at h
      cases hm : findSlot fd ts with
      | some x => rw [hm] at h; cases x; cases h
      | none =>
        intro u hu
        rcases List.mem_cons.mp hu with h1 | h1
        · subst h1; exact ht
        · exact ih hm u h1

theorem findSlot_some {fd : Int} {l pre post : List TermSlot} {t : TermSlot}
    (h : findSlot fd l = some (pre, t, post)) :
    l = pre ++ t :: post ∧ t.fd = fd ∧ ∀ u ∈ pre, u.fd ≠ fd := by
  induction l generalizing pre with
  | nil => simp [findSlot] at h
  | cons b bs ih =>
    simp only [findSlot] at h
    by_cases hb : b.fd = fd
    · rw [if_pos hb] at h
      injection h with h
      injection h with h1 h2
      injection h2 with h2 h3
      subst h2; subst h3
      rw [← h1]
      simp [hb]
    · rw [if_neg hb] at h
      cases hm : findSlot fd bs with
      | some x =>
        obtain ⟨p, u, q⟩ := x
        rw [hm] at h
        injection h with h
        injection h with h1 h2
        injection h2 with h2 h3
        subst h2; subst h3
        rw [← h1]
        obtain ⟨e1, e2, e3⟩ := ih hm
        refine ⟨by simp [e1], e2, ?_⟩
        intro u hu
        rcases List.mem_cons.mp hu with h1 | h1
        · subst h1; exact hb
        · exact e3 u h1
      | none => rw [hm] at h; cases h

theorem findSlot_append {fd : Int} {pre post : List TermSlot} {t : TermSlot}
    (hpre : ∀ u ∈ pre, u.fd ≠ fd) (ht : t.fd = fd) :
    findSlot fd (pre ++ t :: post) = some (pre, t, post) := by
  induction pre with
  | nil => simp [findSlot, ht]
  | cons b bs ih =>
    have hb : b.fd ≠ fd := hpre b (List.mem_cons_self b bs)
    have hbs : ∀ u ∈ bs, u.fd ≠ fd := fun u hu => hpre u (List.mem_cons_of_mem b hu)
    simp only [List.cons_append, findSlot, if_neg hb, List.append_eq]
    rw [ih hbs]

/-- term_find (src/term.c lines 500-526): locate the slot managing a
descriptor; fails with ENOINIT or ENOTFOUND. -/
def term_find (r : Registry) (fd : Int) :
    Except TermErr (List TermSlot × TermSlot × List TermSlot) :=
  if ¬r.initted then .error .enoinit
  else match findSlot fd r.terms with
    | some x => .ok x
    | none => .error .enotfound

/-- term_new (src/term.c lines 432-477): allocate the first free slot
(fd = -1), zero it and set the descriptor; fails with ENOINIT or EFULL.
The backend's `init` operation is modelled as succeeding. -/
def term_new (r : Registry) (fd : Int) :
    Except TermErr (List TermSlot × TermSlot × List TermSlot) :=
  if ¬r.initted then .error .enoinit
  else match findSlot (-1) r.terms with
    | none => .error .efull
    | some (pre, _, post) =>
      let slot : TermSlot :=
        { fd := fd, origtermios := zeroTermios, currtermios := zeroTermios,
          nexttermios := zeroTermios }
      .ok (pre, slot, post)

/-- term_add (src/term.c lines 622-660): register a descriptor.  Fails
with EEXISTS if already present; otherwise allocates via term_new, reads
the device configuration into `origtermios` (tcgetattr succeeds on the
echo device) and copies it to `currtermios`/`nexttermios`. -/
def term_add (r : Registry) (dev : Dev) (fd : Int) : Registry × Option TermErr :=
  match term_find r fd with
  | .ok _ => (r, some .eexists)
  | .error _ =>
    match term_new r fd with
    | .error e => (r, some e)
    | .ok (pre, t, post) =>
      let tio := dev fd
      let t1 := { t with origtermios := tio, currtermios := tio, nexttermios := tio }
      ({ r with terms := pre ++ t1 :: post }, none)

/-- term_erase (src/term.c lines 666-691): remove a descriptor without
restoring its settings (term_free marks the slot free). -/
def term_erase (r : Registry) (fd : Int) : Registry × Option TermErr :=
  match term_find r fd with
  | .error e => (r, some e)
  | .ok (pre, t, post) =>
    ({ r with terms := pre ++ { t with fd := -1 } :: post }, none)

/-- The slot and device transformation of a successful term_apply
(src/term.c lines 836-882): push `nexttermios` to the device, read it
back into `nexttermios` and `currtermios`, and copy the applied HUPCL
flag onto `origtermios`. -/
def apply_slot (t : TermSlot) (dev : Dev) : TermSlot × Dev :=
  let dev1 := devSet dev t.fd t.nexttermios
  let next1 := dev1 t.fd
  let t1 := { t with nexttermios := next1, currtermios := next1 }
  let oc :=
    if t1.currtermios.c_cflag &&& HUPCL ≠ 0 then t1.origtermios.c_cflag ||| HUPCL
    else bclr t1.origtermios.c_cflag HUPCL
  ({ t1 with origtermios := { t1.origtermios with c_cflag := oc } }, dev1)

/-- term_apply (src/term.c lines 836-882).  The `now` flag selects
TCSANOW/TCSAFLUSH, which the echo device does not distinguish. -/
def term_apply (r : Registry) (dev : Dev) (fd : Int) (now : Bool) :
    Registry × Dev × Option TermErr :=
  match term_find r fd with
  | .error e => (r, dev, some e)
  | .ok (pre, t, post) =>
    let (t1, dev1) := apply_slot t dev
    ({ r with terms := pre ++ t1 :: post }, dev1, none)

/-! ### The standard baud-rate table (src/term.c lines 284-412)

Speed codes are the glibc `Bxxx` values (termios.h); `HIGH_BAUD` is not
defined in the default build, so the table holds the 18 base entries
0..115200. -/

def BNONE : Nat := 0xFFFFFFFF

def baud_table : List (Int × Nat) :=
  [(0, 0), (50, 1), (75, 2), (110, 3), (134, 4), (150, 5), (200, 6),
   (300, 7), (600, 8), (1200, 9), (1800, 10), (2400, 11), (4800, 12),
   (9600, 13), (19200, 14), (38400, 15), (57600, 4097), (115200, 4098)]

/-- Bcode (src/term.c lines 385-398): speed to code, BNONE if absent. -/
def Bcode (speed : Int) : Nat :=
  match baud_table.find? (fun p => p.1 == speed) with
  | some p => p.2
  | none => BNONE

/-- Bspeed (src/term.c lines 400-412): code to speed, -1 if absent. -/
def Bspeed (code : Nat) : Int :=
  match baud_table.find? (fun p => p.2 == code) with
  | some p => p.1
  | none => -1

/-- term_set_baudrate (src/term.c lines 915-966): for a table rate, set
the output speed code on `nexttermios` and the input speed to B0 (same
as output); a non-table rate without custom-baud support fails with
TERM_EBAUD. -/
def term_set_baudrate (r : Registry) (fd : Int) (baudrate : Int) :
    Registry × Option TermErr :=
  match term_find r fd with
  | .error e => (r, some e)
  | .ok (pre, t, post) =>
    let spd := Bcode baudrate
    if spd ≠ BNONE then
      let tio := { t.nexttermios with ospeed := spd, ispeed := 0 }
      ({ r with terms := pre ++ { t with nexttermios := tio } :: post }, none)
    else (r, some .ebaud)

/-- term_get_baudrate (src/term.c lines 968-1008) with ispeed = NULL:
translate `currtermios`'s output speed code back to an integer rate;
-1 with TERM_EGETSPEED if the code is not in the table. -/
def term_get_baudrate (r : Registry) (fd : Int) : Int × Option TermErr :=
  match term_find r fd with
  | .error e => (-1, some e)
  | .ok (_, t, _) =>
    let osp := Bspeed t.currtermios.ospeed
    (osp, if osp < 0 then some .egetspeed else none)

/-! ## Claim theorems -/

/-- C1: the claim states that issuing the same offer-enable (or
offer-disable) driving operation a second time while the first
negotiation is outstanding (WANTYES/WANTNO) sends no second
WILL/WONT/DO/DONT and only sets or clears the queue bit.  The code
violates this: in `remote_opt`/`local_opt` the condition
`q->him == want ? NO : YES` parses as `(q->him == want) ? NO : YES`
(it holds whenever the state differs numerically from `want`), so the
RFC1143 queue-handling branches are unreachable and a duplicate request
re-sends the negotiation message.  This theorem evaluates the code at
the failing input: after offer-enable-remote of BINARY from NO (one DO
sent, him = WANTYES), a second offer-enable-remote sends a second DO and
leaves the queue bit untouched; symmetrically for offer-enable-local
(second WILL). -/
theorem remote_opt_repeat_resends :
    (remote_opt initState TELOPT_BINARY 1).2 = [Out.neg DO TELOPT_BINARY] ∧
    ((remote_opt initState TELOPT_BINARY 1).1.opts TELOPT_BINARY).him = WANTYES ∧
    (remote_opt (remote_opt initState TELOPT_BINARY 1).1 TELOPT_BINARY 1).2 =
      [Out.neg DO TELOPT_BINARY] ∧
    ((remote_opt (remote_opt initState TELOPT_BINARY 1).1 TELOPT_BINARY 1).1.opts
      TELOPT_BINARY).him = WANTYES ∧
    ((remote_opt (remote_opt initState TELOPT_BINARY 1).1 TELOPT_BINARY 1).1.opts
      TELOPT_BINARY).himq = EMPTY ∧
    (local_opt (local_opt initState TELOPT_BINARY 1).1 TELOPT_BINARY 1).2 =
      [Out.neg WILL TELOPT_BINARY] := by
  refine ⟨by decide, by decide, by decide, by decide, by decide, by decide⟩

/-- C7: starting from us=NO/him=NO for an option the local policy
accepts, offer-enable-local sends exactly one WILL; a received DO then
moves the local side to YES without emitting any further negotiation
message, and a duplicate DO afterwards emits no outgoing reply and
leaves the state YES.  (For COMPORT, reaching YES additionally fires the
documented COM-PORT configuration side effect, which emits suboption
commands but no WILL/WONT/DO/DONT negotiation message; `negMsgs`
extracts exactly the negotiation messages.) -/
theorem local_enable_do_trace (opt : Nat) (h : local_should opt = true) :
    negMsgs (local_opt initState opt 1).2 = [(WILL, opt)] ∧
    ((local_opt initState opt 1).1.opts opt).us = WANTYES ∧
    ((recv_opt (local_opt initState opt 1).1 DO opt).1.opts opt).us = YES ∧
    negMsgs (recv_opt (local_opt initState opt 1).1 DO opt).2 = [] ∧
    (recv_opt (recv_opt (local_opt initState opt 1).1 DO opt).1 DO opt).2 = [] ∧
    ((recv_opt (recv_opt (local_opt initState opt 1).1 DO opt).1 DO opt).1.opts
      opt).us = YES := by
  have h3 : opt = TELOPT_BINARY ∨ opt = TELOPT_SGA ∨ opt = TELOPT_COMPORT := by
    simpa [local_should, decide_eq_true_eq] using h
  rcases h3 with h3 | h3 | h3 <;> subst h3 <;> exact by decide

/-- C7 witness: the trace at the COMPORT option. -/
theorem local_enable_do_trace_witness :
    local_should TELOPT_COMPORT = true ∧
    (negMsgs (local_opt initState TELOPT_COMPORT 1).2 = [(WILL, TELOPT_COMPORT)] ∧
    ((local_opt initState TELOPT_COMPORT 1).1.opts TELOPT_COMPORT).us = WANTYES ∧
    ((recv_opt (local_opt initState TELOPT_COMPORT 1).1 DO TELOPT_COMPORT).1.opts
      TELOPT_COMPORT).us = YES ∧
    negMsgs (recv_opt (local_opt initState TELOPT_COMPORT 1).1 DO TELOPT_COMPORT).2 = [] ∧
    (recv_opt (recv_opt (local_opt initState TELOPT_COMPORT 1).1 DO TELOPT_COMPORT).1
      DO TELOPT_COMPORT).2 = [] ∧
    ((recv_opt (recv_opt (local_opt initState TELOPT_COMPORT 1).1 DO TELOPT_COMPORT).1
      DO TELOPT_COMPORT).1.opts TELOPT_COMPORT).us = YES) :=
  ⟨by decide, local_enable_do_trace TELOPT_COMPORT (by decide)⟩

/-- C4: a read whose bytes were consumed entirely by in-band TELNET
command processing (no user data extracted) returns the "no data yet"
signal: -1 with errno = EAGAIN (`RdRes.einput true`), which is distinct
from the end-of-stream return 0 (`RdRes.eof`) and from an input error
without EAGAIN (`RdRes.einput false`); in particular it never returns
0 in this case. -/
theorem read_only_commands_yields_again (s : TnState) (chunk : List Nat)
    (h1 : chunk ≠ []) (h2 : (proc_loop s chunk).2.1 = []) :
    read_and_proc s chunk =
      (RdRes.einput true, (proc_loop s chunk).1, (proc_loop s chunk).2.2) ∧
    (read_and_proc s chunk).1 ≠ RdRes.eof ∧
    RdRes.einput true ≠ RdRes.eof ∧
    RdRes.einput true ≠ RdRes.einput false := by
  have he : chunk.isEmpty = false := by
    cases chunk with
    | nil => exact absurd rfl h1
    | cons a l => rfl
  have hr : read_and_proc s chunk =
      (RdRes.einput true, (proc_loop s chunk).1, (proc_loop s chunk).2.2) := by
    rw [read_and_proc, he]
    simp [h2]
  exact ⟨hr, by rw [hr]; simp, by simp, by simp⟩

/-- C4 witness: a read containing exactly one complete negotiation
command {IAC DO BINARY} and nothing else. -/
theorem read_only_commands_yields_again_witness :
    ([IAC, DO, TELOPT_BINARY] : List Nat) ≠ [] ∧
    (proc_loop initState [IAC, DO, TELOPT_BINARY]).2.1 = [] ∧
    (read_and_proc initState [IAC, DO, TELOPT_BINARY] =
      (RdRes.einput true, (proc_loop initState [IAC, DO, TELOPT_BINARY]).1,
       (proc_loop initState [IAC, DO, TELOPT_BINARY]).2.2) ∧
    (read_and_proc initState [IAC, DO, TELOPT_BINARY]).1 ≠ RdRes.eof ∧
    RdRes.einput true ≠ RdRes.eof ∧
    RdRes.einput true ≠ RdRes.einput false) :=
  ⟨by decide, by decide,
   read_only_commands_yields_again initState [IAC, DO, TELOPT_BINARY]
     (by decide) (by decide)⟩

/-- Sequential reads through read_and_proc: feed each chunk (what
read(2) returned on that call) and collect the extracted user data. -/
def decodeReads (s : TnState) : List (List Nat) → TnState × List Nat
  | [] => (s, [])
  | c :: cs =>
    let r := read_and_proc s c
    let d := match r.1 with
      | RdRes.data bs => bs
      | _ => []
    let rest := decodeReads r.2.1 cs
    (rest.1, d ++ rest.2)

theorem proc_loop_append (xs : List Nat) :
    ∀ (s : TnState) (ys : List Nat),
      proc_loop s (xs ++ ys) =
        ((proc_loop (proc_loop s xs).1 ys).1,
         (proc_loop s xs).2.1 ++ (proc_loop (proc_loop s xs).1 ys).2.1,
         (proc_loop s xs).2.2 ++ (proc_loop (proc_loop s xs).1 ys).2.2) := by
  induction xs with
  | nil => intro s ys; simp [proc_loop]
  | cons b bs ih =>
    intro s ys
    simp only [List.cons_append]
    rw [proc_loop, proc_loop, ih (proc_loop1 s b).1 ys]
    simp

theorem proc_loop_doubleIAC (buf : List Nat) :
    ∀ s : TnState, s.cmdbuf = [] →
      proc_loop s (doubleIAC buf) = (s, buf, []) := by
  induction buf with
  | nil => intro s hs; simp [doubleIAC, proc_loop]
  | cons b bs ih =>
    intro s hs
    rw [doubleIAC_cons]
    by_cases hb : b = IAC
    · rw [if_pos hb]
      subst hb
      simp only [List.cons_append, List.nil_append]
      rw [proc_loop]
      have h1 : proc_loop1 s IAC = ({ s with cmdbuf := [IAC] }, [], []) := by
        rw [proc_loop1, if_neg (by simp [hs])]
        simp [TnState.eta_cmdbuf hs]
      rw [h1, proc_loop]
      have h2 : proc_loop1 { s with cmdbuf := [IAC] } IAC = (s, [IAC], []) := by
        rw [proc_loop1, if_pos (by simp)]
        rw [if_pos (by simp)]
        exact congrArg (fun t => (t, [IAC], [])) (TnState.eta_cmdbuf hs)
      rw [h2, ih s hs]
      simp
    · rw [if_neg hb]
      simp only [List.cons_append, List.nil_append]
      rw [proc_loop]
      have h1 : proc_loop1 s b = (s, [b], []) := by
        rw [proc_loop1, if_neg (by simp [hs]), if_neg hb]
        rw [TnState.eta_cmdbuf hs]
      rw [h1, ih s hs]
      simp

theorem decodeReads_eq (chunks : List (List Nat)) :
    ∀ s : TnState,
      decodeReads s chunks =
        ((proc_loop s chunks.flatten).1, (proc_loop s chunks.flatten).2.1) := by
  induction chunks with
  | nil => intro s; simp [decodeReads, proc_loop]
  | cons c cs ih =>
    intro s
    rw [decodeReads]
    by_cases hc : c.isEmpty
    · have hc2 : c = [] := by
        cases c with
        | nil => rfl
        | cons a l => cases hc
      subst hc2
      have : read_and_proc s [] = (RdRes.eof, s, []) := by rw [read_and_proc]; rfl
      rw [this]
      simp only [List.flatten_cons, List.nil_append]
      rw [ih s]
    · have hrp : read_and_proc s c =
          if (proc_loop s c).2.1.isEmpty
          then (RdRes.einput true, (proc_loop s c).1, (proc_loop s c).2.2)
          else (RdRes.data (proc_loop s c).2.1, (proc_loop s c).1, (proc_loop s c).2.2) := by
        rw [read_and_proc]
        rw [Bool.not_eq_true] at hc
        rw [hc]
        rfl
      rw [List.flatten_cons, proc_loop_append]
      by_cases hd : (proc_loop s c).2.1.isEmpty
      · have hd2 : (proc_loop s c).2.1 = [] := by
          revert hd
          cases (proc_loop s c).2.1 with
          | nil => intro _; rfl
          | cons a l => intro hd; cases hd
        rw [hrp, if_pos hd]
        simp only
        rw [ih (proc_loop s c).1]
        simp [hd2]
      · rw [hrp, if_neg hd]
        simp only
        rw [ih (proc_loop s c).1]

/-- C3: IAC stream codec round trip.  Encoding a buffer with
`escape_write` doubles every IAC byte on the wire, and feeding the wire
bytes — in one read or split arbitrarily across several reads — through
the read-side decoder `read_and_proc` reproduces the original buffer
exactly and returns the decoder to its initial state. -/
theorem iac_codec_roundtrip (buf : List Nat) (s : TnState) (chunks : List (List Nat))
    (hbytes : buf.all (fun b => b ≤ 255) = true)
    (hs : s.cmdbuf = [])
    (hw : chunks.flatten = (escape_write_chunks buf).flatten) :
    (escape_write_chunks buf).flatten = doubleIAC buf ∧
    decodeReads s chunks = (s, buf) := by
  refine ⟨escape_write_chunks_flatten buf, ?_⟩
  rw [decodeReads_eq, hw, escape_write_chunks_flatten, proc_loop_doubleIAC buf s hs]

/-- C3 witness: the buffer [65, IAC, IAC, 66] (two adjacent escape
bytes), with the wire bytes split across two reads in the middle of a
doubled IAC pair. -/
theorem iac_codec_roundtrip_witness :
    ([65, IAC, IAC, 66] : List Nat).all (fun b => b ≤ 255) = true ∧
    initState.cmdbuf = [] ∧
    ([[65, 255, 255], [255, 255, 66]] : List (List Nat)).flatten =
      (escape_write_chunks [65, IAC, IAC, 66]).flatten ∧
    ((escape_write_chunks [65, IAC, IAC, 66]).flatten = doubleIAC [65, IAC, IAC, 66] ∧
     decodeReads initState [[65, 255, 255], [255, 255, 66]] = (initState, [65, IAC, IAC, 66])) :=
  ⟨by decide, rfl, by decide,
   iac_codec_roundtrip [65, IAC, IAC, 66] initState [[65, 255, 255], [255, 255, 66]]
     (by decide) rfl (by decide)⟩

/-! ### Preservation of the `configed` latch

No protocol processing ever touches `configed`; only
`cond_initial_conf_complete` sets it (and nothing clears it). -/

theorem configed_send_baudrate (s : TnState) (v : Int) :
    (comport_send_set_baudrate s v).1.configed = s.configed := by
  unfold comport_send_set_baudrate
  split_ifs <;> rfl

theorem configed_send_datasize (s : TnState) (v : Int) :
    (comport_send_set_datasize s v).1.configed = s.configed := rfl

theorem configed_send_parity (s : TnState) (v : Nat) :
    (comport_send_set_parity s v).1.configed = s.configed := rfl

theorem configed_send_stopsize (s : TnState) (v : Int) :
    (comport_send_set_stopsize s v).1.configed = s.configed := rfl

theorem configed_send_fc (s : TnState) (v : Nat) :
    (comport_send_set_fc s v).1.configed = s.configed := rfl

theorem configed_config_port (s : TnState) (tios : Option RTios) :
    (comport_config_port s tios).1.configed = s.configed := by
  cases tios with
  | none => rfl
  | some tio =>
    unfold comport_config_port
    dsimp only
    rw [configed_send_fc, configed_send_stopsize, configed_send_parity,
      configed_send_datasize, configed_send_baudrate]

theorem configed_comport_start (s : TnState) :
    (comport_start s).1.configed = s.configed := by
  unfold comport_start
  dsimp only
  split
  · rw [configed_config_port]
  · rw [configed_config_port]

theorem configed_check_options_changed (s : TnState) (opt : Nat) :
    (check_options_changed s opt).1.configed = s.configed := by
  unfold check_options_changed
  split_ifs with h
  · rw [configed_comport_start]
  · rfl

theorem configed_recv_opt (s : TnState) (op opt : Nat) :
    (recv_opt s op opt).1.configed = s.configed := by
  unfold recv_opt
  dsimp only
  rw [configed_check_options_changed]
  rfl

set_option maxHeartbeats 3000000 in
theorem configed_comport_recv_cmd (s : TnState) (cmd : Nat) (data : List Nat) :
    (comport_recv_cmd s cmd data).1.configed = s.configed := by
  unfold comport_recv_cmd
  simp only [apply_ite (fun p : TnState × List Out => p.1.configed),
             apply_ite (fun t : TnState => t.configed)]
  simp

theorem configed_recv_cmd_byte (s : TnState) :
    (recv_cmd_byte s).1.configed = s.configed := by
  unfold recv_cmd_byte
  dsimp only
  split_ifs <;>
    simp [configed_recv_opt, configed_comport_recv_cmd]

theorem configed_proc_loop1 (s : TnState) (b : Nat) :
    (proc_loop1 s b).1.configed = s.configed := by
  unfold proc_loop1
  dsimp only
  split_ifs <;> simp [configed_recv_cmd_byte]

theorem configed_proc_loop (input : List Nat) :
    ∀ s : TnState, (proc_loop s input).1.configed = s.configed := by
  induction input with
  | nil => intro s; rfl
  | cons b rest ih =>
    intro s
    rw [proc_loop]
    dsimp only
    rw [ih (proc_loop1 s b).1, configed_proc_loop1]

/-- Once `configed` is latched, the initial-configuration condition
holds immediately and the wait loop returns without touching the
state. -/
theorem wait_cond_configed (s : TnState) (evs : List SockEv)
    (h : s.configed = true) :
    wait_cond cond_initial_conf_complete s evs = (WaitRes.ok, s, []) := by
  have hc : cond_initial_conf_complete s = (true, s) := by
    unfold cond_initial_conf_complete
    rw [if_pos h]
  cases evs with
  | nil => simp only [wait_cond, hc]; rfl
  | cons e rest => simp only [wait_cond, hc]; rfl

/-- C5: conf_pending accounting and the initial-configuration latch.
Each configuration set/query command for baud rate, data size, parity,
stop size or flow control increments `conf_pending` by exactly one (the
five-query path of comport_config_port by exactly five); each matching
server reply decrements it by exactly one; the "initial configuration
complete" flag `configed` is latched by cond_initial_conf_complete at
exactly the first evaluation at which COM-PORT is locally enabled and
`conf_pending` is zero; and once true it never becomes false: no
protocol processing (proc_loop covers all received bytes), no
condition evaluation and no wait loop clears it. -/
theorem comport_conf_pending_protocol
    (s s2 : TnState) (speed db sb : Int) (par fl cmd d0 : Nat)
    (data input : List Nat) (evs : List SockEv)
    (hspeed : 0 ≤ speed)
    (hd0 : d0 = COMPORT_CONTROL_FC_XONOFF ∨ d0 = COMPORT_CONTROL_FC_HARDWARE ∨
      d0 = COMPORT_CONTROL_FC_NONE ∨ d0 = COMPORT_CONTROL_FC_DCD ∨
      d0 = COMPORT_CONTROL_FC_DSR)
    (hcfg : s2.configed = true) :
    (comport_send_set_baudrate s speed).1.conf_pending = s.conf_pending + 1 ∧
    (comport_send_set_datasize s db).1.conf_pending = s.conf_pending + 1 ∧
    (comport_send_set_parity s par).1.conf_pending = s.conf_pending + 1 ∧
    (comport_send_set_stopsize s sb).1.conf_pending = s.conf_pending + 1 ∧
    (comport_send_set_fc s fl).1.conf_pending = s.conf_pending + 1 ∧
    (comport_config_port s none).1.conf_pending = s.conf_pending + 5 ∧
    (comport_recv_cmd s (COMPORT_SERVER_BASE + COMPORT_SET_BAUDRATE) data).1.conf_pending
      = s.conf_pending - 1 ∧
    (comport_recv_cmd s (COMPORT_SERVER_BASE + COMPORT_SET_DATASIZE) data).1.conf_pending
      = s.conf_pending - 1 ∧
    (comport_recv_cmd s (COMPORT_SERVER_BASE + COMPORT_SET_PARITY) data).1.conf_pending
      = s.conf_pending - 1 ∧
    (comport_recv_cmd s (COMPORT_SERVER_BASE + COMPORT_SET_STOPSIZE) data).1.conf_pending
      = s.conf_pending - 1 ∧
    (comport_recv_cmd s (COMPORT_SERVER_BASE + COMPORT_SET_CONTROL) (d0 :: data)).1.conf_pending
      = s.conf_pending - 1 ∧
    (cond_initial_conf_complete s).1
      = (s.configed || (s.can_comport && s.conf_pending == 0)) ∧
    (cond_initial_conf_complete s).2.configed
      = (s.configed || (s.can_comport && s.conf_pending == 0)) ∧
    (comport_recv_cmd s2 cmd data).1.configed = true ∧
    (proc_loop s2 input).1.configed = true ∧
    (wait_cond cond_initial_conf_complete s2 evs).2.1.configed = true := by
  refine ⟨?_, rfl, rfl, rfl, rfl, ?_, ?_, ?_, ?_, ?_, ?_, ?_, ?_, ?_, ?_, ?_⟩
  · unfold comport_send_set_baudrate
    rw [if_pos hspeed]
  · unfold comport_config_port
    rfl
  · unfold comport_recv_cmd
    norm_num [COMPORT_SERVER_BASE, COMPORT_SET_BAUDRATE, COMPORT_SIGNATURE]
    split_ifs <;> rfl
  · unfold comport_recv_cmd
    norm_num [COMPORT_SERVER_BASE, COMPORT_SET_DATASIZE, COMPORT_SIGNATURE,
      COMPORT_SET_BAUDRATE]
    split_ifs <;> rfl
  · unfold comport_recv_cmd
    norm_num [COMPORT_SERVER_BASE, COMPORT_SET_PARITY, COMPORT_SIGNATURE,
      COMPORT_SET_BAUDRATE, COMPORT_SET_DATASIZE]
    split_ifs <;> rfl
  · unfold comport_recv_cmd
    norm_num [COMPORT_SERVER_BASE, COMPORT_SET_STOPSIZE, COMPORT_SIGNATURE,
      COMPORT_SET_BAUDRATE, COMPORT_SET_DATASIZE, COMPORT_SET_PARITY]
    split_ifs <;> rfl
  · rcases hd0 with h | h | h | h | h <;> subst h <;>
      · unfold comport_recv_cmd
        norm_num [COMPORT_SERVER_BASE, COMPORT_SET_CONTROL, COMPORT_SIGNATURE,
          COMPORT_SET_BAUDRATE, COMPORT_SET_DATASIZE, COMPORT_SET_PARITY,
          COMPORT_SET_STOPSIZE, COMPORT_CONTROL_FC_XONOFF,
          COMPORT_CONTROL_FC_HARDWARE, COMPORT_CONTROL_FC_NONE,
          COMPORT_CONTROL_FC_DCD, COMPORT_CONTROL_FC_DSR,
          COMPORT_CONTROL_DTR_ON, COMPORT_CONTROL_DTR_OFF,
          COMPORT_CONTROL_RTS_ON, COMPORT_CONTROL_RTS_OFF]
  · unfold cond_initial_conf_complete
    split_ifs with h1 h2
    · simp [h1]
    · simp only [Bool.not_eq_true] at h1
      simp [h1, h2.1, h2.2]
    · simp only [Bool.not_eq_true] at h1
      rcases not_and_or.mp h2 with h | h
      · simp only [Bool.not_eq_true] at h
        simp [h1, h]
      · simp [h1, h]
  · unfold cond_initial_conf_complete
    split_ifs with h1 h2
    · simp [h1]
    · simp only [Bool.not_eq_true] at h1
      simp [h1, h2.1, h2.2]
    · simp only [Bool.not_eq_true] at h1
      rcases not_and_or.mp h2 with h | h
      · simp only [Bool.not_eq_true] at h
        simp [h1, h]
      · simp [h1, h]
  · rw [configed_comport_recv_cmd]
    exact hcfg
  · rw [configed_proc_loop]
    exact hcfg
  · rw [wait_cond_configed s2 evs hcfg]
    exact hcfg

/-- A state with the initial-configuration-complete flag latched. -/
def configedState : TnState := { initState with configed := true }

/-- C5 witness: the accounting at a concrete state (9600 8N1, no flow
control, FC_NONE control reply). -/
theorem comport_conf_pending_protocol_witness :
    (0 : Int) ≤ 9600 ∧
    (COMPORT_CONTROL_FC_NONE = COMPORT_CONTROL_FC_XONOFF ∨
      COMPORT_CONTROL_FC_NONE = COMPORT_CONTROL_FC_HARDWARE ∨
      COMPORT_CONTROL_FC_NONE = COMPORT_CONTROL_FC_NONE ∨
      COMPORT_CONTROL_FC_NONE = COMPORT_CONTROL_FC_DCD ∨
      COMPORT_CONTROL_FC_NONE = COMPORT_CONTROL_FC_DSR) ∧
    configedState.configed = true ∧
    ((comport_send_set_baudrate initState 9600).1.conf_pending = initState.conf_pending + 1 ∧
    (comport_send_set_datasize initState 8).1.conf_pending = initState.conf_pending + 1 ∧
    (comport_send_set_parity initState P_NONE).1.conf_pending = initState.conf_pending + 1 ∧
    (comport_send_set_stopsize initState 1).1.conf_pending = initState.conf_pending + 1 ∧
    (comport_send_set_fc initState FC_NONE).1.conf_pending = initState.conf_pending + 1 ∧
    (comport_config_port initState none).1.conf_pending = initState.conf_pending + 5 ∧
    (comport_recv_cmd initState (COMPORT_SERVER_BASE + COMPORT_SET_BAUDRATE) []).1.conf_pending
      = initState.conf_pending - 1 ∧
    (comport_recv_cmd initState (COMPORT_SERVER_BASE + COMPORT_SET_DATASIZE) []).1.conf_pending
      = initState.conf_pending - 1 ∧
    (comport_recv_cmd initState (COMPORT_SERVER_BASE + COMPORT_SET_PARITY) []).1.conf_pending
      = initState.conf_pending - 1 ∧
    (comport_recv_cmd initState (COMPORT_SERVER_BASE + COMPORT_SET_STOPSIZE) []).1.conf_pending
      = initState.conf_pending - 1 ∧
    (comport_recv_cmd initState (COMPORT_SERVER_BASE + COMPORT_SET_CONTROL)
      (COMPORT_CONTROL_FC_NONE :: [])).1.conf_pending = initState.conf_pending - 1 ∧
    (cond_initial_conf_complete initState).1
      = (initState.configed || (initState.can_comport && initState.conf_pending == 0)) ∧
    (cond_initial_conf_complete initState).2.configed
      = (initState.configed || (initState.can_comport && initState.conf_pending == 0)) ∧
    (comport_recv_cmd configedState 101 []).1.configed = true ∧
    (proc_loop configedState []).1.configed = true ∧
    (wait_cond cond_initial_conf_complete configedState []).2.1.configed = true) :=
  ⟨by decide, by decide, by decide,
   comport_conf_pending_protocol initState configedState 9600 8 1 P_NONE FC_NONE
     101 COMPORT_CONTROL_FC_NONE [] [] [] (by decide) (by decide) (by decide)⟩

/-- C2 counterexample: a read through the Telnet backend IS blocked by
the configuration state machine.  With an initial configuration
requested (`set_termios`) and not complete, `tn2217_read` waits on
`cond_initial_conf_complete`: even though the socket has data available
(a byte during the wait, which the wait loop reads and discards, and a
byte afterwards), the read returns the timeout error instead of the
data. -/
theorem tn2217_read_blocks_on_config :
    (tn2217_read { initState with set_termios := true }
      [SockEv.avail 65] [66]).1 = RdRes.etimedout ∧
    (tn2217_read { initState with set_termios := true }
      [SockEv.avail 65] [66]).1 ≠ RdRes.data [66] := by
  exact ⟨by decide, by decide⟩

/-- C2 (amended): tn2217_read waits only for socket availability when no
initial configuration was requested (`set_termios` clear, i.e. --noinit)
or once the initial configuration is complete — in those cases it is
exactly read_and_proc.  When an initial configuration was requested and
is incomplete, the read first waits (up to the 5000 msec timeout) for
completion and returns the timeout error (-1, TERM_ETIMEDOUT) if it does
not complete. -/
theorem tn2217_read_config_gating (s1 s2 s3 : TnState) (evs : List SockEv)
    (chunk : List Nat)
    (h1 : s1.set_termios = false)
    (h2 : s2.set_termios = true)
    (h3 : (cond_initial_conf_complete s2).1 = true)
    (h4 : s3.set_termios = true)
    (h5 : (cond_initial_conf_complete s3).1 = false)
    (h6 : (wait_cond cond_initial_conf_complete (cond_initial_conf_complete s3).2
            evs).1 = WaitRes.timedout) :
    tn2217_read s1 evs chunk = read_and_proc s1 chunk ∧
    tn2217_read s2 evs chunk = read_and_proc (cond_initial_conf_complete s2).2 chunk ∧
    (tn2217_read s3 evs chunk).1 = RdRes.etimedout := by
  refine ⟨?_, ?_, ?_⟩
  · rw [tn2217_read, if_neg (by rw [h1]; exact Bool.false_ne_true)]
  · rw [tn2217_read, if_pos h2]
    dsimp only
    rw [if_neg (by rw [h3]; exact fun h => h rfl)]
  · rw [tn2217_read, if_pos h4]
    dsimp only
    rw [if_pos (by rw [h5]; exact Bool.false_ne_true)]
    rw [h6]

/-- C2 witness: the three gating cases at concrete states (--noinit;
configuration complete; configuration requested and incomplete with the
wait timing out). -/
theorem tn2217_read_config_gating_witness :
    initState.set_termios = false ∧
    ({ initState with set_termios := true, can_comport := true } : TnState).set_termios = true ∧
    (cond_initial_conf_complete
      { initState with set_termios := true, can_comport := true }).1 = true ∧
    ({ initState with set_termios := true } : TnState).set_termios = true ∧
    (cond_initial_conf_complete { initState with set_termios := true }).1 = false ∧
    (wait_cond cond_initial_conf_complete
      (cond_initial_conf_complete { initState with set_termios := true }).2 []).1
      = WaitRes.timedout ∧
    (tn2217_read initState [] [65] = read_and_proc initState [65] ∧
     tn2217_read { initState with set_termios := true, can_comport := true } [] [65]
       = read_and_proc (cond_initial_conf_complete
           { initState with set_termios := true, can_comport := true }).2 [65] ∧
     (tn2217_read { initState with set_termios := true } [] [65]).1 = RdRes.etimedout) :=
  ⟨by decide, by decide, by decide, by decide, by decide, by decide,
   tn2217_read_config_gating initState
     { initState with set_termios := true, can_comport := true }
     { initState with set_termios := true } [] [65]
     (by decide) (by decide) (by decide) (by decide) (by decide) (by decide)⟩

/-- C6: a write attempted before the COMPORT option is locally enabled
(with an initial configuration requested) enters the wait loop on
`cond_comport_start`, which polls the socket and feeds received bytes
through the protocol decoder.  If the wait times out (5000 msec in the
code, modelled as exhausting the event list), the write returns the
distinguishable timeout failure (-1 with term_errno = TERM_ETIMEDOUT)
and emits only the wait loop's protocol replies — none of the user
bytes.  If the wait ends with the option enabled, the buffer is written
through escape_write. -/
theorem tn2217_write_gating (s s4 : TnState) (evs evs2 : List SockEv)
    (buf : List Nat)
    (h1 : s.set_termios = true) (h2 : s.can_comport = false)
    (h3 : (wait_cond cond_comport_start s evs).1 = WaitRes.timedout)
    (h4 : s4.set_termios = true) (h5 : s4.can_comport = false)
    (h6 : (wait_cond cond_comport_start s4 evs2).1 = WaitRes.ok) :
    (tn2217_write s evs buf).1 = WrRes.etimedout ∧
    (tn2217_write s evs buf).2.2 = (wait_cond cond_comport_start s evs).2.2 ∧
    tn2217_write s4 evs2 buf =
      (WrRes.ok buf.length, (wait_cond cond_comport_start s4 evs2).2.1,
       (wait_cond cond_comport_start s4 evs2).2.2 ++
         (escape_write_chunks buf).map Out.bytes) := by
  have hc : (cond_comport_start s).1 = false := h2
  have hc4 : (cond_comport_start s4).1 = false := h5
  refine ⟨?_, ?_, ?_⟩
  · rw [tn2217_write, if_pos ⟨h1, by rw [hc]; exact Bool.false_ne_true⟩]
    dsimp only
    rw [h3]
  · rw [tn2217_write, if_pos ⟨h1, by rw [hc]; exact Bool.false_ne_true⟩]
    dsimp only
    rw [h3]
  · rw [tn2217_write, if_pos ⟨h4, by rw [hc4]; exact Bool.false_ne_true⟩]
    dsimp only
    rw [h6]

/-- C6 witness: timeout with no events; success after the peer's
{IAC DO COMPORT} arrives during the wait and enables COM-PORT. -/
theorem tn2217_write_gating_witness :
    ({ initState with set_termios := true } : TnState).set_termios = true ∧
    ({ initState with set_termios := true } : TnState).can_comport = false ∧
    (wait_cond cond_comport_start { initState with set_termios := true } []).1
      = WaitRes.timedout ∧
    (wait_cond cond_comport_start { initState with set_termios := true }
      [SockEv.avail IAC, SockEv.avail DO, SockEv.avail TELOPT_COMPORT]).1
      = WaitRes.ok ∧
    ((tn2217_write { initState with set_termios := true } [] [65, IAC]).1
      = WrRes.etimedout ∧
     (tn2217_write { initState with set_termios := true } [] [65, IAC]).2.2
      = (wait_cond cond_comport_start { initState with set_termios := true } []).2.2 ∧
     tn2217_write { initState with set_termios := true }
       [SockEv.avail IAC, SockEv.avail DO, SockEv.avail TELOPT_COMPORT] [65, IAC] =
       (WrRes.ok ([65, IAC] : List Nat).length,
        (wait_cond cond_comport_start { initState with set_termios := true }
          [SockEv.avail IAC, SockEv.avail DO, SockEv.avail TELOPT_COMPORT]).2.1,
        (wait_cond cond_comport_start { initState with set_termios := true }
          [SockEv.avail IAC, SockEv.avail DO, SockEv.avail TELOPT_COMPORT]).2.2 ++
          (escape_write_chunks [65, IAC]).map Out.bytes)) :=
  ⟨by decide, by decide, by decide, by decide,
   tn2217_write_gating { initState with set_termios := true }
     { initState with set_termios := true } []
     [SockEv.avail IAC, SockEv.avail DO, SockEv.avail TELOPT_COMPORT] [65, IAC]
     (by decide) (by decide) (by decide) (by decide) (by decide) (by decide)⟩

/-! ### HUPCL bit arithmetic (HUPCL = 2^10, masks fit in 32 bits) -/

theorem bclr_or_hupcl (x : Nat) : bclr (x ||| HUPCL) HUPCL = bclr x HUPCL := by
  have hH : HUPCL = 2 ^ 10 := by norm_num [HUPCL]
  have hM : (0xFFFFFFFF : Nat) = 2 ^ 32 - 1 := by norm_num
  unfold bclr
  rw [hH, hM]
  apply Nat.eq_of_testBit_eq
  intro i
  simp only [Nat.testBit_land, Nat.testBit_or, Nat.testBit_xor,
    Nat.testBit_two_pow, Nat.testBit_two_pow_sub_one]
  by_cases h10 : 10 = i
  · subst h10
    simp
  · by_cases h32 : i < 32 <;> simp [h10, h32]

theorem bclr_idem_hupcl (x : Nat) : bclr (bclr x HUPCL) HUPCL = bclr x HUPCL := by
  unfold bclr
  apply Nat.eq_of_testBit_eq
  intro i
  simp only [Nat.testBit_land]
  cases x.testBit i <;> cases ((0xFFFFFFFF : Nat) ^^^ HUPCL).testBit i <;> simp

theorem or_hupcl_and (x : Nat) : (x ||| HUPCL) &&& HUPCL = HUPCL := by
  have hH : HUPCL = 2 ^ 10 := by norm_num [HUPCL]
  rw [hH, Nat.and_two_pow]
  simp only [Nat.testBit_or]
  have h1 : (2 ^ 10 : Nat).testBit 10 = true := by decide
  rw [h1]
  simp

theorem bclr_and_hupcl (x : Nat) : bclr x HUPCL &&& HUPCL = 0 := by
  have hH : HUPCL = 2 ^ 10 := by norm_num [HUPCL]
  have hM : (0xFFFFFFFF : Nat) = 2 ^ 32 - 1 := by norm_num
  unfold bclr
  rw [hH, hM, Nat.and_two_pow]
  simp [Nat.testBit_land, Nat.testBit_xor, Nat.testBit_two_pow,
    Nat.testBit_two_pow_sub_one]
  intro _
  decide

theorem and_hupcl_of_ne (x : Nat) (h : x &&& HUPCL ≠ 0) : x &&& HUPCL = HUPCL := by
  have hH : HUPCL = 2 ^ 10 := by norm_num [HUPCL]
  rw [hH] at h ⊢
  rw [Nat.and_two_pow] at h ⊢
  cases hb : x.testBit 10
  · rw [hb] at h; simp at h
  · simp

/-! ### Registry helper lemmas -/

theorem findSlot_none_of_all {fd : Int} {l : List TermSlot}
    (h : ∀ t ∈ l, t.fd ≠ fd) : findSlot fd l = none := by
  induction l with
  | nil => rfl
  | cons t ts ih =>
    rw [findSlot, if_neg (h t (List.mem_cons_self t ts)),
      ih (fun u hu => h u (List.mem_cons_of_mem t hu))]

theorem term_find_ok {r : Registry} {fd : Int}
    {x : List TermSlot × TermSlot × List TermSlot}
    (hi : r.initted = true) (hf : findSlot fd r.terms = some x) :
    term_find r fd = .ok x := by
  unfold term_find
  rw [if_neg (by simp [hi]), hf]

theorem term_find_notfound {r : Registry} {fd : Int}
    (hi : r.initted = true) (hn : findSlot fd r.terms = none) :
    term_find r fd = .error .enotfound := by
  unfold term_find
  rw [if_neg (by simp [hi]), hn]

/-- C8: registry error handling.  Registering an already-registered
descriptor fails with EEXISTS; any registry operation on a
never-registered descriptor fails with ENOTFOUND and leaves the registry
unchanged; registering when all MAX_TERMS = 16 slots are occupied fails
with EFULL and leaves every existing entry unmodified. -/
theorem registry_error_handling
    (r1 r2 r3 : Registry) (dev1 dev2 dev3 : Dev) (fd1 fd2 fd3 b : Int) (now : Bool)
    (x1 : List TermSlot × TermSlot × List TermSlot)
    (h1 : r1.initted = true) (hf1 : findSlot fd1 r1.terms = some x1)
    (h2 : r2.initted = true) (hn2 : findSlot fd2 r2.terms = none)
    (h3 : r3.initted = true) (hl3 : r3.terms.length = MAX_TERMS)
    (hocc : r3.terms.all (fun t => t.fd != -1) = true)
    (hn3 : findSlot fd3 r3.terms = none) :
    term_add r1 dev1 fd1 = (r1, some TermErr.eexists) ∧
    term_find r2 fd2 = Except.error TermErr.enotfound ∧
    term_erase r2 fd2 = (r2, some TermErr.enotfound) ∧
    term_apply r2 dev2 fd2 now = (r2, dev2, some TermErr.enotfound) ∧
    term_set_baudrate r2 fd2 b = (r2, some TermErr.enotfound) ∧
    term_get_baudrate r2 fd2 = (-1, some TermErr.enotfound) ∧
    term_add r3 dev3 fd3 = (r3, some TermErr.efull) := by
  have hfind1 : term_find r1 fd1 = .ok x1 := term_find_ok h1 hf1
  have hfind2 : term_find r2 fd2 = .error .enotfound := term_find_notfound h2 hn2
  have hfind3 : term_find r3 fd3 = .error .enotfound := term_find_notfound h3 hn3
  have hfree : findSlot (-1) r3.terms = none := by
    apply findSlot_none_of_all
    intro t ht
    have := List.all_eq_true.mp hocc t ht
    simpa using this
  have hnew3 : term_new r3 fd3 = .error .efull := by
    unfold term_new
    rw [if_neg (by simp [h3]), hfree]
  refine ⟨?_, hfind2, ?_, ?_, ?_, ?_, ?_⟩
  · unfold term_add
    rw [hfind1]
  · unfold term_erase
    rw [hfind2]
  · unfold term_apply
    rw [hfind2]
  · unfold term_set_baudrate
    rw [hfind2]
  · unfold term_get_baudrate
    rw [hfind2]
  · unfold term_add
    rw [hfind3, hnew3]

/-- C8 witness: a one-slot registry holding fd 5 (EEXISTS on re-add and
ENOTFOUND on fd 7), and a full registry of 16 occupied slots (EFULL). -/
theorem registry_error_handling_witness :
    (Registry.mk true [TermSlot.mk 5 zeroTermios zeroTermios zeroTermios]).initted = true ∧
    findSlot 5 [TermSlot.mk 5 zeroTermios zeroTermios zeroTermios]
      = some ([], TermSlot.mk 5 zeroTermios zeroTermios zeroTermios, []) ∧
    findSlot 7 [TermSlot.mk 5 zeroTermios zeroTermios zeroTermios] = none ∧
    (List.replicate 16 (TermSlot.mk 5 zeroTermios zeroTermios zeroTermios)).length
      = MAX_TERMS ∧
    (List.replicate 16 (TermSlot.mk 5 zeroTermios zeroTermios zeroTermios)).all
      (fun t => t.fd != -1) = true ∧
    findSlot 7 (List.replicate 16 (TermSlot.mk 5 zeroTermios zeroTermios zeroTermios))
      = none ∧
    (term_add (Registry.mk true [TermSlot.mk 5 zeroTermios zeroTermios zeroTermios])
        (fun _ => zeroTermios) 5
      = (Registry.mk true [TermSlot.mk 5 zeroTermios zeroTermios zeroTermios],
         some TermErr.eexists) ∧
     term_find (Registry.mk true [TermSlot.mk 5 zeroTermios zeroTermios zeroTermios]) 7
      = Except.error TermErr.enotfound ∧
     term_erase (Registry.mk true [TermSlot.mk 5 zeroTermios zeroTermios zeroTermios]) 7
      = (Registry.mk true [TermSlot.mk 5 zeroTermios zeroTermios zeroTermios],
         some TermErr.enotfound) ∧
     term_apply (Registry.mk true [TermSlot.mk 5 zeroTermios zeroTermios zeroTermios])
        (fun _ => zeroTermios) 7 true
      = (Registry.mk true [TermSlot.mk 5 zeroTermios zeroTermios zeroTermios],
         (fun _ => zeroTermios), some TermErr.enotfound) ∧
     term_set_baudrate
        (Registry.mk true [TermSlot.mk 5 zeroTermios zeroTermios zeroTermios]) 7 9600
      = (Registry.mk true [TermSlot.mk 5 zeroTermios zeroTermios zeroTermios],
         some TermErr.enotfound) ∧
     term_get_baudrate
        (Registry.mk true [TermSlot.mk 5 zeroTermios zeroTermios zeroTermios]) 7
      = (-1, some TermErr.enotfound) ∧
     term_add (Registry.mk true
        (List.replicate 16 (TermSlot.mk 5 zeroTermios zeroTermios zeroTermios)))
        (fun _ => zeroTermios) 7
      = (Registry.mk true
          (List.replicate 16 (TermSlot.mk 5 zeroTermios zeroTermios zeroTermios)),
         some TermErr.efull)) :=
  ⟨rfl, by decide, by decide, by decide, by decide, by decide,
   registry_error_handling
     (Registry.mk true [TermSlot.mk 5 zeroTermios zeroTermios zeroTermios])
     (Registry.mk true [TermSlot.mk 5 zeroTermios zeroTermios zeroTermios])
     (Registry.mk true (List.replicate 16 (TermSlot.mk 5 zeroTermios zeroTermios zeroTermios)))
     (fun _ => zeroTermios) (fun _ => zeroTermios) (fun _ => zeroTermios)
     5 7 7 9600 true
     ([], TermSlot.mk 5 zeroTermios zeroTermios zeroTermios, [])
     rfl (by decide) rfl (by decide) rfl (by decide) (by decide) (by decide)⟩

theorem baud_table_facts :
    ∀ x ∈ baud_table, Bcode x.1 ≠ BNONE ∧ Bspeed (Bcode x.1) = x.1 := by decide

theorem apply_slot_props (t : TermSlot) (dev : Dev) :
    (apply_slot t dev).1.fd = t.fd ∧
    (apply_slot t dev).1.currtermios = t.nexttermios ∧
    (apply_slot t dev).1.nexttermios = t.nexttermios := by
  unfold apply_slot devSet
  dsimp only
  rw [if_pos rfl]
  exact ⟨rfl, rfl, rfl⟩

/-- C9: for every baud rate in the standard table, term_set_baudrate
followed by term_apply (on the echoing device, the claims' assumption)
followed by term_get_baudrate returns the same integer rate, and the
table translations are mutually inverse: Bspeed (Bcode b) = b. -/
theorem baud_set_apply_get_roundtrip
    (r : Registry) (dev : Dev) (fd b : Int) (now : Bool)
    (pre post : List TermSlot) (t : TermSlot)
    (hi : r.initted = true)
    (hf : findSlot fd r.terms = some (pre, t, post))
    (hb : b ∈ baud_table.map Prod.fst) :
    (term_set_baudrate r fd b).2 = none ∧
    (term_apply (term_set_baudrate r fd b).1 dev fd now).2.2 = none ∧
    (term_get_baudrate (term_apply (term_set_baudrate r fd b).1 dev fd now).1 fd).1 = b ∧
    Bspeed (Bcode b) = b := by
  obtain ⟨x, hx, hxb⟩ := List.mem_map.mp hb
  have facts := baud_table_facts x hx
  rw [hxb] at facts
  obtain ⟨e, etfd, hpre⟩ := findSlot_some hf
  have hfind : term_find r fd = .ok (pre, t, post) := term_find_ok hi hf
  have hset : term_set_baudrate r fd b =
      ({ r with terms := pre ++
          { t with nexttermios :=
              { t.nexttermios with ospeed := Bcode b, ispeed := 0 } } :: post }, none) := by
    unfold term_set_baudrate
    rw [hfind]
    dsimp only
    rw [if_pos facts.1]
  have hf1 : findSlot fd (term_set_baudrate r fd b).1.terms =
      some (pre, { t with nexttermios :=
        { t.nexttermios with ospeed := Bcode b, ispeed := 0 } }, post) := by
    rw [hset]
    exact findSlot_append hpre etfd
  have hi1 : (term_set_baudrate r fd b).1.initted = true := by rw [hset]; exact hi
  have hfind1 := term_find_ok hi1 hf1
  have happ : term_apply (term_set_baudrate r fd b).1 dev fd now =
      ({ (term_set_baudrate r fd b).1 with terms := pre ++
        (apply_slot { t with nexttermios :=
          { t.nexttermios with ospeed := Bcode b, ispeed := 0 } } dev).1 :: post },
       (apply_slot { t with nexttermios :=
          { t.nexttermios with ospeed := Bcode b, ispeed := 0 } } dev).2, none) := by
    unfold term_apply
    rw [hfind1]
  obtain ⟨hafd, hacurr, hanext⟩ := apply_slot_props
    { t with nexttermios := { t.nexttermios with ospeed := Bcode b, ispeed := 0 } } dev
  have hf2 : findSlot fd (term_apply (term_set_baudrate r fd b).1 dev fd now).1.terms =
      some (pre, (apply_slot { t with nexttermios :=
        { t.nexttermios with ospeed := Bcode b, ispeed := 0 } } dev).1, post) := by
    rw [happ]
    exact findSlot_append hpre (by rw [hafd]; exact etfd)
  have hi2 : (term_apply (term_set_baudrate r fd b).1 dev fd now).1.initted = true := by
    rw [happ, hi1]
  have hget : (term_get_baudrate (term_apply (term_set_baudrate r fd b).1 dev fd now).1 fd).1
      = Bspeed (Bcode b) := by
    unfold term_get_baudrate
    rw [term_find_ok hi2 hf2]
    dsimp only
    rw [hacurr]
  refine ⟨by rw [hset], by rw [happ], ?_, facts.2⟩
  rw [hget, facts.2]

/-- C9 witness: the round trip at 9600 bps on a one-slot registry. -/
theorem baud_set_apply_get_roundtrip_witness :
    (Registry.mk true [TermSlot.mk 3 zeroTermios zeroTermios zeroTermios]).initted = true ∧
    findSlot 3 [TermSlot.mk 3 zeroTermios zeroTermios zeroTermios]
      = some ([], TermSlot.mk 3 zeroTermios zeroTermios zeroTermios, []) ∧
    (9600 : Int) ∈ baud_table.map Prod.fst ∧
    ((term_set_baudrate (Registry.mk true [TermSlot.mk 3 zeroTermios zeroTermios zeroTermios])
        3 9600).2 = none ∧
     (term_apply (term_set_baudrate
        (Registry.mk true [TermSlot.mk 3 zeroTermios zeroTermios zeroTermios]) 3 9600).1
        (fun _ => zeroTermios) 3 true).2.2 = none ∧
     (term_get_baudrate (term_apply (term_set_baudrate
        (Registry.mk true [TermSlot.mk 3 zeroTermios zeroTermios zeroTermios]) 3 9600).1
        (fun _ => zeroTermios) 3 true).1 3).1 = 9600 ∧
     Bspeed (Bcode 9600) = 9600) :=
  ⟨rfl, by decide, by decide,
   baud_set_apply_get_roundtrip
     (Registry.mk true [TermSlot.mk 3 zeroTermios zeroTermios zeroTermios])
     (fun _ => zeroTermios) 3 9600 true [] []
     (TermSlot.mk 3 zeroTermios zeroTermios zeroTermios)
     rfl (by decide) (by decide)⟩

/-- C10: after a successful term_apply, every field of the saved
original configuration is unchanged except the HUPCL bit of its
c_cflag, which is overwritten to equal the HUPCL bit of the
configuration just applied (currtermios, read back from the device). -/
theorem term_apply_orig_frame
    (r : Registry) (dev : Dev) (fd : Int) (now : Bool)
    (pre post : List TermSlot) (t : TermSlot)
    (hi : r.initted = true)
    (hf : findSlot fd r.terms = some (pre, t, post)) :
    term_apply r dev fd now =
      ({ r with terms := pre ++ (apply_slot t dev).1 :: post },
       (apply_slot t dev).2, none) ∧
    (apply_slot t dev).1.origtermios.c_iflag = t.origtermios.c_iflag ∧
    (apply_slot t dev).1.origtermios.c_oflag = t.origtermios.c_oflag ∧
    (apply_slot t dev).1.origtermios.c_lflag = t.origtermios.c_lflag ∧
    (apply_slot t dev).1.origtermios.c_cc = t.origtermios.c_cc ∧
    (apply_slot t dev).1.origtermios.ispeed = t.origtermios.ispeed ∧
    (apply_slot t dev).1.origtermios.ospeed = t.origtermios.ospeed ∧
    bclr (apply_slot t dev).1.origtermios.c_cflag HUPCL
      = bclr t.origtermios.c_cflag HUPCL ∧
    (apply_slot t dev).1.origtermios.c_cflag &&& HUPCL
      = (apply_slot t dev).1.currtermios.c_cflag &&& HUPCL ∧
    (apply_slot t dev).1.currtermios = t.nexttermios := by
  have h1 : term_apply r dev fd now =
      ({ r with terms := pre ++ (apply_slot t dev).1 :: post },
       (apply_slot t dev).2, none) := by
    unfold term_apply
    rw [term_find_ok hi hf]
  have hcurr : (apply_slot t dev).1.currtermios = t.nexttermios := by
    unfold apply_slot devSet
    dsimp only
    rw [if_pos rfl]
  have horig : (apply_slot t dev).1.origtermios =
      { t.origtermios with c_cflag :=
        (if t.nexttermios.c_cflag &&& HUPCL ≠ 0 then t.origtermios.c_cflag ||| HUPCL
         else bclr t.origtermios.c_cflag HUPCL) } := by
    unfold apply_slot devSet
    dsimp only
    rw [if_pos rfl]
  refine ⟨h1, ?_, ?_, ?_, ?_, ?_, ?_, ?_, ?_, hcurr⟩
  · rw [horig]
  · rw [horig]
  · rw [horig]
  · rw [horig]
  · rw [horig]
  · rw [horig]
  · rw [horig]
    by_cases hc : t.nexttermios.c_cflag &&& HUPCL ≠ 0
    · rw [if_pos hc]
      exact bclr_or_hupcl t.origtermios.c_cflag
    · rw [if_neg hc]
      exact bclr_idem_hupcl t.origtermios.c_cflag
  · rw [horig, hcurr]
    by_cases hc : t.nexttermios.c_cflag &&& HUPCL ≠ 0
    · rw [if_pos hc, or_hupcl_and, and_hupcl_of_ne t.nexttermios.c_cflag hc]
    · rw [if_neg hc, bclr_and_hupcl]
      rw [not_not] at hc
      rw [hc]

/-- A slot whose saved original configuration has HUPCL set while the
pending configuration to be applied does not. -/
def hupclSlot : TermSlot :=
  TermSlot.mk 3 { zeroTermios with c_cflag := HUPCL ||| 2 } zeroTermios
    { zeroTermios with c_cflag := 7 }

/-- C10 witness: applying a configuration without HUPCL to a slot whose
original configuration had HUPCL set. -/
theorem term_apply_orig_frame_witness :
    (Registry.mk true [hupclSlot]).initted = true ∧
    findSlot 3 [hupclSlot] = some ([], hupclSlot, []) ∧
    (term_apply (Registry.mk true [hupclSlot]) (fun _ => zeroTermios) 3 true =
      ({ Registry.mk true [hupclSlot] with
          terms := [] ++ (apply_slot hupclSlot (fun _ => zeroTermios)).1 :: [] },
       (apply_slot hupclSlot (fun _ => zeroTermios)).2, none) ∧
    (apply_slot hupclSlot (fun _ => zeroTermios)).1.origtermios.c_iflag
      = hupclSlot.origtermios.c_iflag ∧
    (apply_slot hupclSlot (fun _ => zeroTermios)).1.origtermios.c_oflag
      = hupclSlot.origtermios.c_oflag ∧
    (apply_slot hupclSlot (fun _ => zeroTermios)).1.origtermios.c_lflag
      = hupclSlot.origtermios.c_lflag ∧
    (apply_slot hupclSlot (fun _ => zeroTermios)).1.origtermios.c_cc
      = hupclSlot.origtermios.c_cc ∧
    (apply_slot hupclSlot (fun _ => zeroTermios)).1.origtermios.ispeed
      = hupclSlot.origtermios.ispeed ∧
    (apply_slot hupclSlot (fun _ => zeroTermios)).1.origtermios.ospeed
      = hupclSlot.origtermios.ospeed ∧
    bclr (apply_slot hupclSlot (fun _ => zeroTermios)).1.origtermios.c_cflag HUPCL
      = bclr hupclSlot.origtermios.c_cflag HUPCL ∧
    (apply_slot hupclSlot (fun _ => zeroTermios)).1.origtermios.c_cflag &&& HUPCL
      = (apply_slot hupclSlot (fun _ => zeroTermios)).1.currtermios.c_cflag &&& HUPCL ∧
    (apply_slot hupclSlot (fun _ => zeroTermios)).1.currtermios
      = hupclSlot.nexttermios) :=
  ⟨rfl, by decide,
   term_apply_orig_frame (Registry.mk true [hupclSlot]) (fun _ => zeroTermios) 3 true
     [] [] hupclSlot rfl (by decide)⟩

end Picocom
